import Mathlib

/-!
# ISpyEERecHit: the endcap rechit exporter

A shallow embedding of `ISpyEERecHit::analyze` (src/src/ISpyEERecHit.cc) and of
the record store it writes to, followed by the properties proved about them.

Conventions of the embedding.

* `float` and `double` values are represented by the rational number they
  denote. Widening a `float` to a `double` is the identity on those numbers,
  and the division by `100.0` is taken exactly.
* The detector identifier is a 32-bit unsigned machine word, represented by a
  natural number; the cast to `int` is written out with `% 2 ^ 32`.
* A C++ reference to a collection of the store is embedded as: fetch the
  collection, run the statements on it, write it back to the store. The two
  collections used by `analyze` have different names, so they never alias.
* `assert` is taken to be active: a failed assertion stops the run at once.
* The geometry resolves every detector identifier to a cell and to a
  subdetector; what the cell reports (its corners, in any number) is free.
* A call of `analyze` ends in one of four ways, see `Outcome`: it returns, it
  throws (the service is not available), an exception raised by `getData`
  leaves it (the geometry record cannot be resolved), or it is stopped by a
  hard failure. The state of the service is kept in the last two cases too,
  as it stands when the run stops.
* Line 47 stores the address of the reference that `getData` returns. Such an
  address is never null, so the pointer tested on line 49 is never null.
-/

namespace ISpy

/-! ## The record store -/

/-- Modelled from the spec: the 3-component double vector `IgV3d` declared in
`ISpy/Services/interface/IgCollection.h`, which is not part of the sources. -/
structure IgV3d where
  x : ℚ
  y : ℚ
  z : ℚ
  deriving DecidableEq, Repr

/-- Modelled from the spec: the default constructor `IgV3d()`, the default
vector. -/
def IgV3d.zero : IgV3d := ⟨0, 0, 0⟩

/-- Modelled from the spec: the four column types of the store (64-bit float,
32-bit integer, string, 3-component double vector). -/
inductive IgColumnType where
  | double
  | int
  | string
  | v3d
  deriving DecidableEq, Repr

/-- Modelled from the spec: a dynamically typed cell value, a closed tagged
variant over the four column types. -/
inductive IgValue where
  | double (d : ℚ)
  | int (i : ℤ)
  | string (s : String)
  | v3d (v : IgV3d)
  deriving DecidableEq, Repr

/-- Modelled from the spec: the column type a value belongs to. -/
def IgValue.type : IgValue → IgColumnType
  | .double _ => .double
  | .int _ => .int
  | .string _ => .string
  | .v3d _ => .v3d

/-- Modelled from the spec: a declared Property of a Collection, a name and a
type together with the default value given at declaration. -/
structure IgColumn where
  name : String
  type : IgColumnType
  defaultValue : IgValue
  deriving DecidableEq, Repr

/-- Modelled from the spec: the handle `IgProperty` returned by a declaration;
it designates a column of its collection by position in declaration order. -/
structure IgProperty where
  column : Nat
  deriving DecidableEq, Repr

/-- Modelled from the spec: the handle `IgCollectionItem` returned by row
creation; it designates a row of its collection by position in creation
order. -/
structure IgCollectionItem where
  row : Nat
  deriving DecidableEq, Repr

/-- Modelled from the spec: a Collection, a named table owning its Properties
in declaration order and its Items in creation order. Every Item holds one
value per Property. -/
structure IgCollection where
  name : String
  properties : List IgColumn
  items : List (List IgValue)
  deriving DecidableEq, Repr

/-- Modelled from the spec: the process-wide store `IgDataStorage`, an
insertion-ordered sequence of Collections addressed by name. -/
structure IgDataStorage where
  collections : List IgCollection
  deriving DecidableEq, Repr

/-- The store of a process that has not exported anything yet. -/
def IgDataStorage.empty : IgDataStorage := ⟨[]⟩

/-- First collection of the list carrying the given name. -/
def lookupCollection (name : String) : List IgCollection → Option IgCollection
  | [] => none
  | c :: cs => if c.name = name then some c else lookupCollection name cs

/-- Replaces the first collection that has the name of `c` by `c`. -/
def replaceCollection (c : IgCollection) : List IgCollection → List IgCollection
  | [] => []
  | d :: ds => if d.name = c.name then c :: ds else d :: replaceCollection c ds

/-- The collection stored under a name, if any. -/
def IgDataStorage.find? (s : IgDataStorage) (name : String) : Option IgCollection :=
  lookupCollection name s.collections

/-- Modelled from the spec: `getOrCreateCollection(name)`, called
`IgDataStorage::getCollection` in the source. Returns the existing collection
of that name, else creates an empty one at the end of the store. Never
fails. -/
def IgDataStorage.getCollection (s : IgDataStorage) (name : String) :
    IgDataStorage × IgCollection :=
  match s.find? name with
  | some c => (s, c)
  | none => (⟨s.collections ++ [⟨name, [], []⟩]⟩, ⟨name, [], []⟩)

/-- Writes the state of a referenced collection back into the store. -/
def IgDataStorage.put (s : IgDataStorage) (c : IgCollection) : IgDataStorage :=
  ⟨replaceCollection c s.collections⟩

/-- The items of the collection stored under a name; none when there is no
such collection. -/
def IgDataStorage.itemsOf (s : IgDataStorage) (name : String) : List (List IgValue) :=
  match s.find? name with
  | some c => c.items
  | none => []

/-- The properties of the collection stored under a name; none when there is
no such collection. -/
def IgDataStorage.propertiesOf (s : IgDataStorage) (name : String) : List IgColumn :=
  match s.find? name with
  | some c => c.properties
  | none => []

/-- A sequence of statements on one referenced collection. It yields a value,
or it fails hard (`none`); in both cases the collection is returned as it
stands at that point. -/
def IgM (α : Type) : Type := IgCollection → Option α × IgCollection

/-- Sequencing of statements: a hard failure stops the sequence. -/
def IgM.bind {α β : Type} (m : IgM α) (f : α → IgM β) : IgM β := fun c =>
  match m c with
  | (some a, c1) => f a c1
  | (none, c1) => (none, c1)

instance : Monad IgM where
  pure a := fun c => (some a, c)
  bind := IgM.bind

/-- Position of the first column with the given name. -/
def columnIndex (name : String) : List IgColumn → Option Nat
  | [] => none
  | p :: ps => if p.name = name then some 0 else (columnIndex name ps).map (· + 1)

/-- Modelled from the spec: `Collection.declareProperty(name, type,
defaultValue)`, called `IgCollection::addProperty` in the source; the type is
that of the default value. A name already declared with the same type yields
the existing handle and changes nothing; a name already declared with another
type is a contract violation (hard failure); a new name is appended to the
properties, every existing item receiving the default value. -/
def IgCollection.addProperty (name : String) (defaultValue : IgValue) : IgM IgProperty :=
  fun c =>
    match columnIndex name c.properties with
    | some i =>
      if (c.properties[i]?).map (·.type) = some defaultValue.type then (some ⟨i⟩, c)
      else (none, c)
    | none =>
      (some ⟨c.properties.length⟩,
        { c with
          properties := c.properties ++ [⟨name, defaultValue.type, defaultValue⟩]
          items := c.items.map (· ++ [defaultValue]) })

/-- Modelled from the spec: `Collection.createItem()`, called
`IgCollection::create` in the source. Appends one row holding the declared
default value of every property and returns a handle on that row. -/
def IgCollection.create : IgM IgCollectionItem := fun c =>
  (some ⟨c.items.length⟩,
    { c with items := c.items ++ [c.properties.map (·.defaultValue)] })

/-- Modelled from the spec: `Item.set(PropertyHandle, value)`, written
`item[PROPERTY] = value` in the source. The value must have the declared type
of the property; a mismatch, or a handle that designates nothing, is a
contract violation (hard failure). -/
def IgCollectionItem.set (item : IgCollectionItem) (property : IgProperty) (value : IgValue) :
    IgM Unit := fun c =>
  match c.properties[property.column]?, c.items[item.row]? with
  | some p, some r =>
    if p.type = value.type then
      (some (), { c with items := c.items.set item.row (r.set property.column value) })
    else (none, c)
  | _, _ => (none, c)

/-- Modelled from the spec: value of the property of the given name on the
row of the given position, as a consumer of the collection reads it. -/
def IgCollection.get? (c : IgCollection) (row : Nat) (name : String) : Option IgValue :=
  match columnIndex name c.properties, c.items[row]? with
  | some i, some r => r[i]?
  | _, _ => none

/-- Modelled from the spec: the service `ISpyService` of
`ISpy/Analyzers/interface/ISpyService.h`, which is not part of the sources: the
store it hands out through `storage()` and the messages received by its error
sink, oldest first. -/
structure ISpyService where
  storage : IgDataStorage
  errors : List String
  deriving DecidableEq, Repr

/-- Modelled from the spec: the error sink `report(message)`, called
`ISpyService::error` in the source; it records the message and touches nothing
else. -/
def ISpyService.error (svc : ISpyService) (message : String) : ISpyService :=
  { svc with errors := svc.errors ++ [message] }

/-! ## The collaborators of the exporter -/

/-- The configured address `edm::InputTag` of the hit collection. -/
structure InputTag where
  label : String
  productInstance : String
  process : String
  deriving DecidableEq, Repr

/-- A point `GlobalPoint` of the geometry source, in its native length unit. -/
structure GlobalPoint where
  x : ℚ
  y : ℚ
  z : ℚ
  deriving DecidableEq, Repr

/-- The part of `CaloCellGeometry` read by the exporter: the corner points
`getCorners()`, and the angular coordinates `getPosition().eta()` and
`getPosition().phi()` of the cell. -/
structure CaloCellGeometry where
  getCorners : List GlobalPoint
  eta : ℚ
  phi : ℚ

/-- The part of `CaloSubdetectorGeometry` read by the exporter: the angular
granularity of a cell, keyed by detector identifier. -/
structure CaloSubdetectorGeometry where
  deltaEta : Nat → ℚ
  deltaPhi : Nat → ℚ

/-- The part of `CaloGeometry` read by the exporter: resolution of a detector
identifier to its cell and to its subdetector. -/
structure CaloGeometry where
  getGeometry : Nat → CaloCellGeometry
  getSubdetectorGeometry : Nat → CaloSubdetectorGeometry

/-- The part of `EcalRecHit` read by the exporter. The identifier `detid` is a
32-bit unsigned word. -/
structure EcalRecHit where
  detid : Nat
  energy : ℚ
  time : ℚ
  deriving DecidableEq, Repr

/-- The event, as far as the exporter reads it: the handle obtained for the
configured address, `none` when `isValid()` is false. -/
structure Event where
  collection : Option (List EcalRecHit)

/-- The event setup, as far as the exporter reads it: what the call
`getData(caloGeometryToken_)` of line 47 does. It returns a reference to the
geometry, or, when the record cannot be resolved, it does not return: it
raises (`none`). -/
structure EventSetup where
  getData : Option CaloGeometry

/-- The exporter object: its configured input address. -/
structure ISpyEERecHit where
  inputTag_ : InputTag
  deriving DecidableEq, Repr

/-- How a call of `analyze` ends. -/
inductive Outcome where
  /-- The call returned; the service is in the given state. -/
  | returned (svc : ISpyService)
  /-- The call threw a `cms::Exception` of the given category. -/
  | thrown (category : String)
  /-- The call of `getData` on line 47 raised and the exception left
  `analyze`; the service is in the given state. -/
  | escaped (svc : ISpyService)
  /-- The call was stopped by a failed assertion or by a contract violation
  of the store; the service is in the given state at that moment. -/
  | aborted (svc : ISpyService)

/-- The state of the service when the call ends, however it ends; there is
none when the service was not available. -/
def Outcome.service? : Outcome → Option ISpyService
  | .returned svc => some svc
  | .thrown _ => none
  | .escaped svc => some svc
  | .aborted svc => some svc

/-- Whether the call returned normally. -/
def Outcome.isReturned : Outcome → Bool
  | .returned _ => true
  | _ => false

/-- Whether the call hard-failed. -/
def Outcome.isAborted : Outcome → Bool
  | .aborted _ => true
  | _ => false

/-- The call returned normally. -/
def Outcome.Returned (o : Outcome) : Prop := o.isReturned = true

/-- The call hard-failed: it was stopped and did not return. -/
def Outcome.Aborted (o : Outcome) : Prop := o.isAborted = true

/-- The store when the call ends. -/
def Outcome.storage? (o : Outcome) : Option IgDataStorage :=
  match o.service? with
  | some svc => some svc.storage
  | none => none

/-- The messages received by the error sink when the call ends. -/
def Outcome.errors (o : Outcome) : List String :=
  match o.service? with
  | some svc => svc.errors
  | none => []

/-- The collection of the given name in the store when the call ends. -/
def Outcome.find? (o : Outcome) (name : String) : Option IgCollection :=
  match o.service? with
  | some svc => svc.storage.find? name
  | none => none

/-- The items of the collection of the given name when the call ends. -/
def Outcome.itemsOf (o : Outcome) (name : String) : List (List IgValue) :=
  match o.find? name with
  | some c => c.items
  | none => []

/-- The properties of the collection of the given name when the call ends. -/
def Outcome.propertiesOf (o : Outcome) (name : String) : List IgColumn :=
  match o.find? name with
  | some c => c.properties
  | none => []

/-- The value read, when the call ends, in the collection of the given name,
on the row of the given position, for the property of the given name. -/
def Outcome.value? (o : Outcome) (name : String) (row : Nat) (property : String) :
    Option IgValue :=
  match o.find? name with
  | some c => c.get? row property
  | none => none

/-! ## The exporter -/

/-- The C++ `assert`: a false condition stops the run. -/
def assert (condition : Bool) : IgM Unit := fun c =>
  if condition then (some (), c) else (none, c)

/-- The cast `static_cast<int>` of a 32-bit unsigned word: the word is read as
a two's complement signed 32-bit integer. -/
def staticCastInt (detid : Nat) : ℤ :=
  if detid % 2 ^ 32 < 2 ^ 31 then ((detid % 2 ^ 32 : Nat) : ℤ)
  else ((detid % 2 ^ 32 : Nat) : ℤ) - 2 ^ 32

/-- The expression `IgV3d(corners[k].x()/100.0, corners[k].y()/100.0,
corners[k].z()/100.0)` of lines 115 to 139. -/
def scaledCorner (corners : List GlobalPoint) (k : Nat) : IgV3d :=
  ⟨(corners.getD k ⟨0, 0, 0⟩).x / 100,
   (corners.getD k ⟨0, 0, 0⟩).y / 100,
   (corners.getD k ⟨0, 0, 0⟩).z / 100⟩

/-- The handles declared on lines 74 to 88. -/
structure RecHitProperties where
  E : IgProperty
  ETA : IgProperty
  PHI : IgProperty
  TIME : IgProperty
  DETID : IgProperty
  FRONT_1 : IgProperty
  FRONT_2 : IgProperty
  FRONT_3 : IgProperty
  FRONT_4 : IgProperty
  BACK_1 : IgProperty
  BACK_2 : IgProperty
  BACK_3 : IgProperty
  BACK_4 : IgProperty
  DELTAETA : IgProperty
  DELTAPHI : IgProperty

/-- Lines 68 to 71 of `analyze`, on the referenced collection `products`. -/
def writeProduct (product : String) : IgM Unit := do
  let PROD ← IgCollection.addProperty "Product" (.string "")
  let item ← IgCollection.create
  item.set PROD (.string product)

/-- Lines 74 to 88 of `analyze`, on the referenced collection `recHits`. -/
def declareRecHitProperties : IgM RecHitProperties := do
  let E ← IgCollection.addProperty "energy" (.double 0)
  let ETA ← IgCollection.addProperty "eta" (.double 0)
  let PHI ← IgCollection.addProperty "phi" (.double 0)
  let TIME ← IgCollection.addProperty "time" (.double 0)
  let DETID ← IgCollection.addProperty "detid" (.int 0)
  let FRONT_1 ← IgCollection.addProperty "front_1" (.v3d IgV3d.zero)
  let FRONT_2 ← IgCollection.addProperty "front_2" (.v3d IgV3d.zero)
  let FRONT_3 ← IgCollection.addProperty "front_3" (.v3d IgV3d.zero)
  let FRONT_4 ← IgCollection.addProperty "front_4" (.v3d IgV3d.zero)
  let BACK_1 ← IgCollection.addProperty "back_1" (.v3d IgV3d.zero)
  let BACK_2 ← IgCollection.addProperty "back_2" (.v3d IgV3d.zero)
  let BACK_3 ← IgCollection.addProperty "back_3" (.v3d IgV3d.zero)
  let BACK_4 ← IgCollection.addProperty "back_4" (.v3d IgV3d.zero)
  let DELTAETA ← IgCollection.addProperty "deltaEta" (.double 0)
  let DELTAPHI ← IgCollection.addProperty "deltaPhi" (.double 0)
  pure ⟨E, ETA, PHI, TIME, DETID, FRONT_1, FRONT_2, FRONT_3, FRONT_4,
    BACK_1, BACK_2, BACK_3, BACK_4, DELTAETA, DELTAPHI⟩

/-- Lines 92 to 139 of `analyze`: the body of the loop, for the hit `it`, on
the referenced collection `recHits`. -/
def exportRecHit (caloGeometry : CaloGeometry) (P : RecHitProperties) (it : EcalRecHit) :
    IgM Unit := do
  let cell := caloGeometry.getGeometry it.detid
  let corners := cell.getCorners
  let energy := it.energy
  let time := it.time
  let eta := cell.eta
  let phi := cell.phi
  let caloSubdetectorGeometry := caloGeometry.getSubdetectorGeometry it.detid
  let deltaEta := caloSubdetectorGeometry.deltaEta it.detid
  let deltaPhi := caloSubdetectorGeometry.deltaPhi it.detid
  let irechit ← IgCollection.create
  irechit.set P.E (.double energy)
  irechit.set P.ETA (.double eta)
  irechit.set P.PHI (.double phi)
  irechit.set P.TIME (.double time)
  irechit.set P.DETID (.int (staticCastInt it.detid))
  irechit.set P.DELTAETA (.double deltaEta)
  irechit.set P.DELTAPHI (.double deltaPhi)
  assert (corners.length == 8)
  irechit.set P.FRONT_1 (.v3d (scaledCorner corners 3))
  irechit.set P.FRONT_2 (.v3d (scaledCorner corners 2))
  irechit.set P.FRONT_3 (.v3d (scaledCorner corners 1))
  irechit.set P.FRONT_4 (.v3d (scaledCorner corners 0))
  irechit.set P.BACK_1 (.v3d (scaledCorner corners 7))
  irechit.set P.BACK_2 (.v3d (scaledCorner corners 6))
  irechit.set P.BACK_3 (.v3d (scaledCorner corners 5))
  irechit.set P.BACK_4 (.v3d (scaledCorner corners 4))

/-- Line 90 of `analyze`: the loop over the hits, first to last. -/
def exportRecHits (caloGeometry : CaloGeometry) (P : RecHitProperties) :
    List EcalRecHit → IgM Unit
  | [] => pure ()
  | it :: rest => do
    exportRecHit caloGeometry P it
    exportRecHits caloGeometry P rest

/-- The provenance string of lines 62 to 66. -/
def productName (friendlyClassName : String) (inputTag : InputTag) : String :=
  "EERecHits " ++ friendlyClassName ++ ":" ++ inputTag.label ++ ":"
    ++ inputTag.productInstance ++ ":" ++ inputTag.process

/-- The function `ISpyEERecHit::analyze`. `config` is the service handle, `none`
when `isAvailable()` is false; `friendlyClassName` is the value of
`edm::TypeID (typeid (EcalRecHitCollection)).friendlyClassName()`. -/
def ISpyEERecHit.analyze (self : ISpyEERecHit) (friendlyClassName : String)
    (config : Option ISpyService) (event : Event) (eventSetup : EventSetup) : Outcome :=
  match config with
  | none => .thrown "Configuration"
  | some svc =>
    let storage := svc.storage
    match eventSetup.getData with
    | none => .escaped svc
    | some geometry =>
      -- line 47: the address of the reference returned, which is never null
      let caloGeometry_ : Option CaloGeometry := some geometry
      match caloGeometry_ with
      | none =>
        .returned (svc.error "### Error: ISpyEERecHit::analyze: Invalid CaloGeometryRecord ")
      | some caloGeometry =>
        match event.collection with
        | some collection =>
          let product := productName friendlyClassName self.inputTag_
          let (storage, products) := storage.getCollection "Products_V1"
          match writeProduct product products with
          | (none, products) => .aborted { svc with storage := storage.put products }
          | (some _, products) =>
            let storage := storage.put products
            let (storage, recHits) := storage.getCollection "EERecHits_V2"
            match (do
                let P ← declareRecHitProperties
                exportRecHits caloGeometry P collection) recHits with
            | (none, recHits) => .aborted { svc with storage := storage.put recHits }
            | (some _, recHits) => .returned { svc with storage := storage.put recHits }
        | none =>
          .returned (svc.error ("### Error: EERecHits " ++ friendlyClassName ++ ":"
            ++ self.inputTag_.label ++ ":" ++ self.inputTag_.productInstance ++ ":"
            ++ self.inputTag_.process ++ " are not found."))

/-! ## Vocabulary of the statements -/

/-- The schema declared on `"Products_V1"` by line 69. -/
def productsSchema : List IgColumn := [⟨"Product", .string, .string ""⟩]

/-- The schema declared on `"EERecHits_V2"` by lines 74 to 88. -/
def recHitSchema : List IgColumn :=
  [⟨"energy", .double, .double 0⟩, ⟨"eta", .double, .double 0⟩,
   ⟨"phi", .double, .double 0⟩, ⟨"time", .double, .double 0⟩,
   ⟨"detid", .int, .int 0⟩,
   ⟨"front_1", .v3d, .v3d IgV3d.zero⟩, ⟨"front_2", .v3d, .v3d IgV3d.zero⟩,
   ⟨"front_3", .v3d, .v3d IgV3d.zero⟩, ⟨"front_4", .v3d, .v3d IgV3d.zero⟩,
   ⟨"back_1", .v3d, .v3d IgV3d.zero⟩, ⟨"back_2", .v3d, .v3d IgV3d.zero⟩,
   ⟨"back_3", .v3d, .v3d IgV3d.zero⟩, ⟨"back_4", .v3d, .v3d IgV3d.zero⟩,
   ⟨"deltaEta", .double, .double 0⟩, ⟨"deltaPhi", .double, .double 0⟩]

/-- The collection of the given name is absent from the store, or it carries
exactly the given schema. -/
def HasSchema (s : IgDataStorage) (name : String) (schema : List IgColumn) : Prop :=
  ∀ c, s.find? name = some c → c.properties = schema

/-- The invariant of the store under this exporter: each of its two
collections is absent or carries exactly the schema the exporter declares. It
holds of the empty store and every call of `analyze` preserves it. -/
def SchemaInv (s : IgDataStorage) : Prop :=
  HasSchema s "Products_V1" productsSchema ∧ HasSchema s "EERecHits_V2" recHitSchema

/-- The resolved cell of a hit. -/
def cellOf (caloGeometry : CaloGeometry) (it : EcalRecHit) : CaloCellGeometry :=
  caloGeometry.getGeometry it.detid

/-- Every hit of the sequence resolves to a cell with 8 corners. -/
def AllEightCorners (caloGeometry : CaloGeometry) (hits : List EcalRecHit) : Prop :=
  ∀ it ∈ hits, (cellOf caloGeometry it).getCorners.length = 8

/-- The handles obtained by `declareRecHitProperties` on the schema
`recHitSchema`: the positions 0 to 14. -/
def recHitHandles : RecHitProperties :=
  ⟨⟨0⟩, ⟨1⟩, ⟨2⟩, ⟨3⟩, ⟨4⟩, ⟨5⟩, ⟨6⟩, ⟨7⟩, ⟨8⟩, ⟨9⟩, ⟨10⟩, ⟨11⟩, ⟨12⟩, ⟨13⟩, ⟨14⟩⟩

/-- The row of a hit at the moment the corner count is asserted: the scalar
fields are assigned, the corner fields hold the default vector. -/
def scalarRow (caloGeometry : CaloGeometry) (it : EcalRecHit) : List IgValue :=
  [.double it.energy, .double (cellOf caloGeometry it).eta,
   .double (cellOf caloGeometry it).phi, .double it.time,
   .int (staticCastInt it.detid),
   .v3d IgV3d.zero, .v3d IgV3d.zero, .v3d IgV3d.zero, .v3d IgV3d.zero,
   .v3d IgV3d.zero, .v3d IgV3d.zero, .v3d IgV3d.zero, .v3d IgV3d.zero,
   .double ((caloGeometry.getSubdetectorGeometry it.detid).deltaEta it.detid),
   .double ((caloGeometry.getSubdetectorGeometry it.detid).deltaPhi it.detid)]

/-- The row of a hit once the body of the loop has run to its end. -/
def completeRow (caloGeometry : CaloGeometry) (it : EcalRecHit) : List IgValue :=
  [.double it.energy, .double (cellOf caloGeometry it).eta,
   .double (cellOf caloGeometry it).phi, .double it.time,
   .int (staticCastInt it.detid),
   .v3d (scaledCorner (cellOf caloGeometry it).getCorners 3),
   .v3d (scaledCorner (cellOf caloGeometry it).getCorners 2),
   .v3d (scaledCorner (cellOf caloGeometry it).getCorners 1),
   .v3d (scaledCorner (cellOf caloGeometry it).getCorners 0),
   .v3d (scaledCorner (cellOf caloGeometry it).getCorners 7),
   .v3d (scaledCorner (cellOf caloGeometry it).getCorners 6),
   .v3d (scaledCorner (cellOf caloGeometry it).getCorners 5),
   .v3d (scaledCorner (cellOf caloGeometry it).getCorners 4),
   .double ((caloGeometry.getSubdetectorGeometry it.detid).deltaEta it.detid),
   .double ((caloGeometry.getSubdetectorGeometry it.detid).deltaPhi it.detid)]

/-- The rows the loop leaves behind: complete rows up to the first hit whose
cell has not 8 corners, and the scalar row of that hit, where the run stops. -/
def exportedRows (caloGeometry : CaloGeometry) : List EcalRecHit → List (List IgValue)
  | [] => []
  | it :: rest =>
    if (cellOf caloGeometry it).getCorners.length = 8 then
      completeRow caloGeometry it :: exportedRows caloGeometry rest
    else [scalarRow caloGeometry it]

/-- Whether the loop runs to its end. -/
def loopCompletes (caloGeometry : CaloGeometry) : List EcalRecHit → Bool
  | [] => true
  | it :: rest =>
    if (cellOf caloGeometry it).getCorners.length = 8 then loopCompletes caloGeometry rest
    else false

/-- A message of the error sink begins with the given text. -/
def BeginsWith (start message : String) : Prop := ∃ rest, message = start ++ rest

/-- A collection as `getCollection` hands it out under the invariant: newly
created, or carrying the schema. -/
def FreshOr (schema : List IgColumn) (c : IgCollection) : Prop :=
  (c.properties = [] ∧ c.items = []) ∨ c.properties = schema

/-! ## Sample inputs -/

/-- An exporter configured with label `L`, instance `I`, process `P`. -/
def sampleExporter : ISpyEERecHit := ⟨⟨"L", "I", "P"⟩⟩

/-- A geometry in which every cell has the corners `(i, i, i)` for `i` from 0
to 7, `eta = 0.1`, `phi = 0.2`, `deltaEta = 0.01` and `deltaPhi = 0.02`. -/
def sampleGeometry : CaloGeometry :=
  ⟨fun _ => ⟨[⟨0, 0, 0⟩, ⟨1, 1, 1⟩, ⟨2, 2, 2⟩, ⟨3, 3, 3⟩, ⟨4, 4, 4⟩, ⟨5, 5, 5⟩, ⟨6, 6, 6⟩,
      ⟨7, 7, 7⟩], 1 / 10, 2 / 10⟩,
   fun _ => ⟨fun _ => 1 / 100, fun _ => 2 / 100⟩⟩

/-- A geometry as `sampleGeometry`, except that the cell of detector
identifier 7 has 7 corners only. -/
def faultyGeometry : CaloGeometry :=
  ⟨fun detid =>
      if detid = 7 then
        ⟨[⟨0, 0, 0⟩, ⟨1, 1, 1⟩, ⟨2, 2, 2⟩, ⟨3, 3, 3⟩, ⟨4, 4, 4⟩, ⟨5, 5, 5⟩, ⟨6, 6, 6⟩],
          1 / 10, 2 / 10⟩
      else sampleGeometry.getGeometry detid,
   sampleGeometry.getSubdetectorGeometry⟩

/-- The hit with `detectorId = 42`, `energy = 1.5`, `time = 3.2`. -/
def sampleHit : EcalRecHit := ⟨42, 3 / 2, 16 / 5⟩

/-- A service with an empty store and an empty error sink. -/
def freshService : ISpyService := ⟨IgDataStorage.empty, []⟩

/-! ## The statements on one collection -/

theorem IgM.bind_apply {α β : Type} (m : IgM α) (f : α → IgM β) (c : IgCollection) :
    (m >>= f) c = match m c with
      | (some a, c1) => f a c1
      | (none, c1) => (none, c1) := rfl

theorem IgM.pure_apply {α : Type} (a : α) (c : IgCollection) :
    (pure a : IgM α) c = (some a, c) := rfl

theorem set_last (n : String) (props : List IgColumn) (rows : List (List IgValue))
    (r : List IgValue) (k : Nat) (v : IgValue)
    (h : (props[k]?).map (·.type) = some v.type) :
    IgCollectionItem.set ⟨rows.length⟩ ⟨k⟩ v ⟨n, props, rows ++ [r]⟩
      = (some (), ⟨n, props, rows ++ [r.set k v]⟩) := by
  unfold IgCollectionItem.set
  cases hp : props[k]? with
  | none => simp [hp] at h
  | some p =>
    simp only [hp, Option.map_some', Option.some.injEq] at h
    simp [h]

theorem set_last_if (n : String) (props : List IgColumn) (rows : List (List IgValue))
    (r : List IgValue) (k : Nat) (v : IgValue) :
    IgCollectionItem.set ⟨rows.length⟩ ⟨k⟩ v ⟨n, props, rows ++ [r]⟩
      = if (props[k]?).map (·.type) = some v.type then
          (some (), ⟨n, props, rows ++ [r.set k v]⟩)
        else (none, ⟨n, props, rows ++ [r]⟩) := by
  by_cases h : (props[k]?).map (·.type) = some v.type
  · rw [if_pos h, set_last n props rows r k v h]
  · rw [if_neg h]
    unfold IgCollectionItem.set
    cases hp : props[k]? with
    | none => simp
    | some p =>
      have : p.type ≠ v.type := by
        intro e
        exact h (by simp [hp, e])
      simp [this]

theorem create_apply (n : String) (props : List IgColumn) (rows : List (List IgValue)) :
    IgCollection.create ⟨n, props, rows⟩
      = (some ⟨rows.length⟩, ⟨n, props, rows ++ [props.map (·.defaultValue)]⟩) := rfl

theorem writeProduct_fresh (product n : String) :
    writeProduct product ⟨n, [], []⟩ = (some (), ⟨n, productsSchema, [[.string product]]⟩) := by
  rfl

theorem writeProduct_declared (product n : String) (rows : List (List IgValue)) :
    writeProduct product ⟨n, productsSchema, rows⟩
      = (some (), ⟨n, productsSchema, rows ++ [[.string product]]⟩) := by
  have h1 : IgCollection.addProperty "Product" (.string "") ⟨n, productsSchema, rows⟩
      = (some ⟨0⟩, ⟨n, productsSchema, rows⟩) := rfl
  simp only [writeProduct, IgM.bind_apply, h1, create_apply]
  rw [set_last n productsSchema rows _ 0 (.string product) rfl]
  rfl

theorem declare_fresh (n : String) :
    declareRecHitProperties ⟨n, [], []⟩ = (some recHitHandles, ⟨n, recHitSchema, []⟩) := by
  rfl

theorem declare_declared (n : String) (rows : List (List IgValue)) :
    declareRecHitProperties ⟨n, recHitSchema, rows⟩
      = (some recHitHandles, ⟨n, recHitSchema, rows⟩) := by
  rfl

theorem exportRecHit_complete (caloGeometry : CaloGeometry) (it : EcalRecHit) (n : String)
    (rows : List (List IgValue)) (h : (cellOf caloGeometry it).getCorners.length = 8) :
    exportRecHit caloGeometry recHitHandles it ⟨n, recHitSchema, rows⟩
      = (some (), ⟨n, recHitSchema, rows ++ [completeRow caloGeometry it]⟩) := by
  have h8 : ((caloGeometry.getGeometry it.detid).getCorners.length == 8) = true := by
    simpa [cellOf] using h
  simp [exportRecHit, IgM.bind_apply, create_apply, recHitHandles, assert, h8,
    set_last_if, recHitSchema, IgValue.type, completeRow, cellOf]

theorem exportRecHit_stopped (caloGeometry : CaloGeometry) (it : EcalRecHit) (n : String)
    (rows : List (List IgValue)) (h : (cellOf caloGeometry it).getCorners.length ≠ 8) :
    exportRecHit caloGeometry recHitHandles it ⟨n, recHitSchema, rows⟩
      = (none, ⟨n, recHitSchema, rows ++ [scalarRow caloGeometry it]⟩) := by
  have h8 : ((caloGeometry.getGeometry it.detid).getCorners.length == 8) = false := by
    simpa [cellOf] using h
  simp [exportRecHit, IgM.bind_apply, create_apply, recHitHandles, assert, h8,
    set_last_if, recHitSchema, IgValue.type, scalarRow, cellOf]

theorem exportRecHits_apply (caloGeometry : CaloGeometry) (n : String)
    (hits : List EcalRecHit) (rows : List (List IgValue)) :
    exportRecHits caloGeometry recHitHandles hits ⟨n, recHitSchema, rows⟩
      = (if loopCompletes caloGeometry hits then some () else none,
          ⟨n, recHitSchema, rows ++ exportedRows caloGeometry hits⟩) := by
  induction hits generalizing rows with
  | nil => simp [exportRecHits, loopCompletes, exportedRows, IgM.pure_apply]
  | cons it rest ih =>
    by_cases h : (cellOf caloGeometry it).getCorners.length = 8
    · simp only [exportRecHits, IgM.bind_apply, exportRecHit_complete _ _ _ _ h, ih,
        loopCompletes, exportedRows, h, if_true, List.append_assoc, List.singleton_append]
    · simp only [exportRecHits, IgM.bind_apply, exportRecHit_stopped _ _ _ _ h,
        loopCompletes, exportedRows, h, if_false]
      simp

theorem writeProduct_apply (product : String) (c : IgCollection)
    (h : FreshOr productsSchema c) :
    writeProduct product c
      = (some (), ⟨c.name, productsSchema, c.items ++ [[.string product]]⟩) := by
  obtain ⟨n, props, rows⟩ := c
  rcases h with ⟨hp, hi⟩ | hp
  · simp only at hp hi
    subst hp hi
    exact writeProduct_fresh product n
  · simp only at hp
    subst hp
    exact writeProduct_declared product n rows

theorem exportAll_apply (caloGeometry : CaloGeometry) (hits : List EcalRecHit)
    (c : IgCollection) (h : FreshOr recHitSchema c) :
    (declareRecHitProperties >>= fun P => exportRecHits caloGeometry P hits) c
      = (if loopCompletes caloGeometry hits then some () else none,
          ⟨c.name, recHitSchema, c.items ++ exportedRows caloGeometry hits⟩) := by
  obtain ⟨n, props, rows⟩ := c
  rcases h with ⟨hp, hi⟩ | hp
  · simp only at hp hi
    subst hp hi
    simp only [IgM.bind_apply, declare_fresh, exportRecHits_apply]
  · simp only at hp
    subst hp
    simp only [IgM.bind_apply, declare_declared, exportRecHits_apply]

/-! ## The statements on the store -/

theorem lookup_name (n : String) (cs : List IgCollection) (c : IgCollection)
    (h : lookupCollection n cs = some c) : c.name = n := by
  induction cs with
  | nil => simp [lookupCollection] at h
  | cons d ds ih =>
    unfold lookupCollection at h
    by_cases hd : d.name = n
    · rw [if_pos hd] at h
      cases h
      exact hd
    · rw [if_neg hd] at h
      exact ih h

theorem lookup_replace_same (c d : IgCollection) (cs : List IgCollection)
    (h : lookupCollection c.name cs = some d) :
    lookupCollection c.name (replaceCollection c cs) = some c := by
  induction cs with
  | nil => simp [lookupCollection] at h
  | cons e es ih =>
    unfold lookupCollection at h
    unfold replaceCollection
    by_cases he : e.name = c.name
    · rw [if_pos he]
      simp [lookupCollection]
    · rw [if_neg he] at h
      rw [if_neg he]
      unfold lookupCollection
      rw [if_neg he]
      exact ih h

theorem lookup_replace_other (m : String) (c : IgCollection) (cs : List IgCollection)
    (h : m ≠ c.name) :
    lookupCollection m (replaceCollection c cs) = lookupCollection m cs := by
  induction cs with
  | nil => rfl
  | cons e es ih =>
    unfold replaceCollection
    by_cases he : e.name = c.name
    · rw [if_pos he]
      have h1 : ¬ c.name = m := fun x => h x.symm
      have h2 : ¬ e.name = m := fun x => h (x.symm.trans he)
      simp [lookupCollection, h1, h2]
    · rw [if_neg he]
      unfold lookupCollection
      rw [ih]

theorem lookup_append (m : String) (c : IgCollection) (cs : List IgCollection) :
    lookupCollection m (cs ++ [c])
      = match lookupCollection m cs with
        | some d => some d
        | none => if c.name = m then some c else none := by
  induction cs with
  | nil => simp [lookupCollection]
  | cons e es ih =>
    by_cases he : e.name = m
    · simp [lookupCollection, he]
    · simp [lookupCollection, he, ih]

theorem find?_put_same (s : IgDataStorage) (c d : IgCollection)
    (h : s.find? c.name = some d) : (s.put c).find? c.name = some c :=
  lookup_replace_same c d s.collections h

theorem find?_put_other (s : IgDataStorage) (c : IgCollection) (m : String)
    (h : m ≠ c.name) : (s.put c).find? m = s.find? m :=
  lookup_replace_other m c s.collections h

theorem getCollection_find?_same (s : IgDataStorage) (n : String) :
    (s.getCollection n).1.find? n = some (s.getCollection n).2 := by
  unfold IgDataStorage.getCollection
  cases h : s.find? n with
  | some c => simpa using h
  | none =>
    have h1 : lookupCollection n s.collections = none := h
    simp [IgDataStorage.find?, lookup_append, h1]

theorem getCollection_find?_other (s : IgDataStorage) (n m : String) (h : m ≠ n) :
    (s.getCollection n).1.find? m = s.find? m := by
  unfold IgDataStorage.getCollection
  cases h1 : s.find? n with
  | some c => rfl
  | none =>
    have h2 : ¬ n = m := fun x => h x.symm
    simp only [IgDataStorage.find?, lookup_append, h2, if_false]
    cases lookupCollection m s.collections <;> rfl

theorem getCollection_name (s : IgDataStorage) (n : String) :
    (s.getCollection n).2.name = n := by
  unfold IgDataStorage.getCollection
  cases h : s.find? n with
  | some c => exact lookup_name n s.collections c h
  | none => rfl

theorem getCollection_items (s : IgDataStorage) (n : String) :
    (s.getCollection n).2.items = s.itemsOf n := by
  unfold IgDataStorage.getCollection IgDataStorage.itemsOf
  cases h : s.find? n <;> rfl

theorem getCollection_freshOr (s : IgDataStorage) (n : String) (schema : List IgColumn)
    (h : HasSchema s n schema) : FreshOr schema (s.getCollection n).2 := by
  unfold IgDataStorage.getCollection
  cases h1 : s.find? n with
  | some c => exact Or.inr (h c h1)
  | none => exact Or.inl ⟨rfl, rfl⟩

/-! ## The run of `analyze` on a valid event -/

theorem analyze_valid (self : ISpyEERecHit) (friendlyClassName : String) (svc : ISpyService)
    (hits : List EcalRecHit) (caloGeometry : CaloGeometry) (h : SchemaInv svc.storage) :
    ∃ s : IgDataStorage,
      self.analyze friendlyClassName (some svc) ⟨some hits⟩ ⟨some caloGeometry⟩
        = (if loopCompletes caloGeometry hits then Outcome.returned ⟨s, svc.errors⟩
           else Outcome.aborted ⟨s, svc.errors⟩)
      ∧ s.find? "Products_V1" = some ⟨"Products_V1", productsSchema,
          svc.storage.itemsOf "Products_V1"
            ++ [[.string (productName friendlyClassName self.inputTag_)]]⟩
      ∧ s.find? "EERecHits_V2" = some ⟨"EERecHits_V2", recHitSchema,
          svc.storage.itemsOf "EERecHits_V2" ++ exportedRows caloGeometry hits⟩
      ∧ ∀ m, m ≠ "Products_V1" → m ≠ "EERecHits_V2" → s.find? m = svc.storage.find? m := by
  have hne : ("EERecHits_V2" : String) ≠ "Products_V1" := by decide
  -- the collection of the products
  have a1 := getCollection_find?_same svc.storage "Products_V1"
  have a2 := getCollection_find?_other svc.storage "Products_V1"
  have a3 := getCollection_name svc.storage "Products_V1"
  have a4 := getCollection_items svc.storage "Products_V1"
  have a5 := getCollection_freshOr svc.storage "Products_V1" productsSchema h.1
  rcases e1 : svc.storage.getCollection "Products_V1" with ⟨s1, c1⟩
  rw [e1] at a1 a2 a3 a4 a5
  simp only at a1 a2 a3 a4 a5
  have w1 := writeProduct_apply (productName friendlyClassName self.inputTag_) c1 a5
  rw [a3, a4] at w1
  -- the store once the products are written
  have p1 : (s1.put ⟨"Products_V1", productsSchema, svc.storage.itemsOf "Products_V1"
      ++ [[.string (productName friendlyClassName self.inputTag_)]]⟩).find? "Products_V1"
      = some ⟨"Products_V1", productsSchema, svc.storage.itemsOf "Products_V1"
      ++ [[.string (productName friendlyClassName self.inputTag_)]]⟩ :=
    find?_put_same s1 ⟨"Products_V1", productsSchema, _⟩ c1 a1
  have p2 : ∀ m, m ≠ "Products_V1" →
      (s1.put ⟨"Products_V1", productsSchema, svc.storage.itemsOf "Products_V1"
        ++ [[.string (productName friendlyClassName self.inputTag_)]]⟩).find? m
        = svc.storage.find? m := fun m hm =>
    (find?_put_other s1 ⟨"Products_V1", productsSchema, _⟩ m hm).trans (a2 m hm)
  generalize e0 : s1.put ⟨"Products_V1", productsSchema, svc.storage.itemsOf "Products_V1"
      ++ [[.string (productName friendlyClassName self.inputTag_)]]⟩ = s2 at p1 p2
  -- the collection of the hits
  have hs2 : HasSchema s2 "EERecHits_V2" recHitSchema := by
    intro c hc
    rw [p2 _ hne] at hc
    exact h.2 c hc
  have i2 : s2.itemsOf "EERecHits_V2" = svc.storage.itemsOf "EERecHits_V2" := by
    unfold IgDataStorage.itemsOf
    rw [p2 _ hne]
  have b1 := getCollection_find?_same s2 "EERecHits_V2"
  have b2 := getCollection_find?_other s2 "EERecHits_V2"
  have b3 := getCollection_name s2 "EERecHits_V2"
  have b4 := getCollection_items s2 "EERecHits_V2"
  have b5 := getCollection_freshOr s2 "EERecHits_V2" recHitSchema hs2
  rcases e2 : s2.getCollection "EERecHits_V2" with ⟨s3, c3⟩
  rw [e2] at b1 b2 b3 b4 b5
  simp only at b1 b2 b3 b4 b5
  have w2 := exportAll_apply caloGeometry hits c3 b5
  rw [b3, b4, i2] at w2
  refine ⟨s3.put ⟨"EERecHits_V2", recHitSchema,
    svc.storage.itemsOf "EERecHits_V2" ++ exportedRows caloGeometry hits⟩, ?_, ?_, ?_, ?_⟩
  · simp only [ISpyEERecHit.analyze, e1, w1, e0, e2, w2]
    cases loopCompletes caloGeometry hits <;> rfl
  · rw [find?_put_other _ _ _ hne.symm, b2 _ hne.symm, p1]
  · exact find?_put_same s3 ⟨"EERecHits_V2", recHitSchema, _⟩ c3 b1
  · intro m hP hR
    rw [find?_put_other _ _ _ hR, b2 _ hR, p2 _ hP]

theorem loopCompletes_iff (caloGeometry : CaloGeometry) (hits : List EcalRecHit) :
    loopCompletes caloGeometry hits = true ↔ AllEightCorners caloGeometry hits := by
  induction hits with
  | nil => simp [loopCompletes, AllEightCorners]
  | cons it rest ih =>
    by_cases h : (cellOf caloGeometry it).getCorners.length = 8
    · simp only [loopCompletes, h, if_true, ih]
      simp [AllEightCorners, h]
    · simp only [loopCompletes, h, if_false]
      simp [AllEightCorners, h]

theorem exportedRows_append (caloGeometry : CaloGeometry) (pre rest : List EcalRecHit)
    (h : AllEightCorners caloGeometry pre) :
    exportedRows caloGeometry (pre ++ rest)
      = pre.map (completeRow caloGeometry) ++ exportedRows caloGeometry rest := by
  induction pre with
  | nil => rfl
  | cons it pre ih =>
    have h1 : (cellOf caloGeometry it).getCorners.length = 8 := h it (by simp)
    have h2 : AllEightCorners caloGeometry pre := fun x hx => h x (by simp [hx])
    simp [exportedRows, h1, ih h2]

theorem loopCompletes_append (caloGeometry : CaloGeometry) (pre rest : List EcalRecHit)
    (h : AllEightCorners caloGeometry pre) :
    loopCompletes caloGeometry (pre ++ rest) = loopCompletes caloGeometry rest := by
  induction pre with
  | nil => rfl
  | cons it pre ih =>
    have h1 : (cellOf caloGeometry it).getCorners.length = 8 := h it (by simp)
    have h2 : AllEightCorners caloGeometry pre := fun x hx => h x (by simp [hx])
    simp [loopCompletes, h1, ih h2]

theorem exportedRows_all (caloGeometry : CaloGeometry) (hits : List EcalRecHit)
    (h : AllEightCorners caloGeometry hits) :
    exportedRows caloGeometry hits = hits.map (completeRow caloGeometry) := by
  have := exportedRows_append caloGeometry hits [] h
  simpa [exportedRows] using this

theorem get?_appended (n : String) (schema : List IgColumn) (old rows : List (List IgValue))
    (i : Nat) (property : String) :
    (⟨n, schema, old ++ rows⟩ : IgCollection).get? (old.length + i) property
      = match columnIndex property schema, rows[i]? with
        | some k, some r => r[k]?
        | _, _ => none := by
  unfold IgCollection.get?
  simp only [List.getElem?_append_right (Nat.le_add_right _ _), Nat.add_sub_cancel_left]

/-- What the call observes on a valid event, under the invariant. -/
theorem analyze_valid_observed (self : ISpyEERecHit) (friendlyClassName : String)
    (svc : ISpyService) (hits : List EcalRecHit) (caloGeometry : CaloGeometry)
    (h : SchemaInv svc.storage) :
    let o := self.analyze friendlyClassName (some svc) ⟨some hits⟩ ⟨some caloGeometry⟩
    (o.Returned ↔ AllEightCorners caloGeometry hits)
    ∧ (o.Aborted ↔ ¬ AllEightCorners caloGeometry hits)
    ∧ o.errors = svc.errors
    ∧ o.find? "Products_V1" = some ⟨"Products_V1", productsSchema,
        svc.storage.itemsOf "Products_V1"
          ++ [[.string (productName friendlyClassName self.inputTag_)]]⟩
    ∧ o.find? "EERecHits_V2" = some ⟨"EERecHits_V2", recHitSchema,
        svc.storage.itemsOf "EERecHits_V2" ++ exportedRows caloGeometry hits⟩
    ∧ ∀ m, m ≠ "Products_V1" → m ≠ "EERecHits_V2" → o.find? m = svc.storage.find? m := by
  obtain ⟨s, e, hP, hR, hO⟩ := analyze_valid self friendlyClassName svc hits caloGeometry h
  intro o
  have eo : o = (if loopCompletes caloGeometry hits then Outcome.returned ⟨s, svc.errors⟩
           else Outcome.aborted ⟨s, svc.errors⟩) := e
  rw [eo]
  by_cases hl : loopCompletes caloGeometry hits = true
  · have ha := (loopCompletes_iff caloGeometry hits).1 hl
    simp only [hl, if_true]
    exact ⟨by simp [Outcome.Returned, Outcome.isReturned, ha],
      by simp [Outcome.Aborted, Outcome.isAborted, ha], rfl, hP, hR, hO⟩
  · have ha : ¬ AllEightCorners caloGeometry hits :=
      fun x => hl ((loopCompletes_iff caloGeometry hits).2 x)
    simp only [hl]
    exact ⟨by simp [Outcome.Returned, Outcome.isReturned, ha],
      by simp [Outcome.Aborted, Outcome.isAborted, ha], rfl, hP, hR, hO⟩

/-- The empty store satisfies the invariant. -/
theorem schemaInv_empty : SchemaInv IgDataStorage.empty := by
  constructor <;> intro c hc <;> simp [IgDataStorage.find?, IgDataStorage.empty, lookupCollection] at hc

/-- Every call of `analyze` preserves the invariant, however the call ends. -/
theorem schemaInv_analyze (self : ISpyEERecHit) (friendlyClassName : String)
    (svc svc1 : ISpyService) (event : Event) (eventSetup : EventSetup)
    (h : SchemaInv svc.storage)
    (h1 : (self.analyze friendlyClassName (some svc) event eventSetup).service? = some svc1) :
    SchemaInv svc1.storage := by
  obtain ⟨collection⟩ := event
  obtain ⟨geometry⟩ := eventSetup
  cases geometry with
  | none =>
    simp only [ISpyEERecHit.analyze, Outcome.service?, Option.some.injEq] at h1
    subst h1
    exact h
  | some caloGeometry =>
    cases collection with
    | none =>
      simp only [ISpyEERecHit.analyze, Outcome.service?, Option.some.injEq] at h1
      subst h1
      exact h
    | some hits =>
      obtain ⟨-, -, -, hP, hR, -⟩ :=
        analyze_valid_observed self friendlyClassName svc hits caloGeometry h
      simp only [Outcome.find?, h1] at hP hR
      constructor
      · intro c hc
        rw [hP] at hc
        cases hc
        rfl
      · intro c hc
        rw [hR] at hc
        cases hc
        rfl

theorem value?_of_find? (o : Outcome) (n m : String) (schema : List IgColumn)
    (old a b : List (List IgValue)) (r : List IgValue) (property : String)
    (h : o.find? m = some ⟨n, schema, old ++ (a ++ r :: b)⟩) :
    o.value? m (old.length + a.length) property
      = match columnIndex property schema with
        | some k => r[k]?
        | none => none := by
  unfold Outcome.value?
  rw [h]
  simp only [get?_appended]
  have : (a ++ r :: b)[a.length]? = some r := by
    rw [List.getElem?_append_right (Nat.le_refl _), Nat.sub_self]
    exact List.getElem?_cons_zero
  rw [this]
  cases columnIndex property schema <;> rfl

/-- The row of a processed hit with an 8-corner cell, as found in the store
when the call ends. -/
theorem row_of_processed_hit (self : ISpyEERecHit) (friendlyClassName : String)
    (svc : ISpyService) (caloGeometry : CaloGeometry) (pre post : List EcalRecHit)
    (it : EcalRecHit) (property : String)
    (hinv : SchemaInv svc.storage) (hpre : AllEightCorners caloGeometry pre)
    (h8 : (caloGeometry.getGeometry it.detid).getCorners.length = 8) :
    (self.analyze friendlyClassName (some svc) ⟨some (pre ++ it :: post)⟩
        ⟨some caloGeometry⟩).value? "EERecHits_V2"
        ((svc.storage.itemsOf "EERecHits_V2").length + pre.length) property
      = match columnIndex property recHitSchema with
        | some k => (completeRow caloGeometry it)[k]?
        | none => none := by
  obtain ⟨-, -, -, -, hR, -⟩ :=
    analyze_valid_observed self friendlyClassName svc (pre ++ it :: post) caloGeometry hinv
  have h8' : (cellOf caloGeometry it).getCorners.length = 8 := h8
  rw [exportedRows_append caloGeometry pre (it :: post) hpre] at hR
  simp only [exportedRows, h8', if_true] at hR
  have := value?_of_find? _ _ _ _ _ (pre.map (completeRow caloGeometry))
    (exportedRows caloGeometry post) (completeRow caloGeometry it) property hR
  simpa using this

theorem staticCastInt_small (detid : Nat) (h : detid < 2 ^ 31) :
    staticCastInt detid = (detid : ℤ) := by
  have h1 : detid % 2 ^ 32 = detid := Nat.mod_eq_of_lt (by omega)
  unfold staticCastInt
  rw [h1, if_pos h]

theorem staticCastInt_large (detid : Nat) (h : 2 ^ 31 ≤ detid) (h2 : detid < 2 ^ 32) :
    staticCastInt detid = (detid : ℤ) - 2 ^ 32 := by
  have h1 : detid % 2 ^ 32 = detid := Nat.mod_eq_of_lt h2
  unfold staticCastInt
  rw [h1, if_neg (by omega)]

theorem value?_last (o : Outcome) (n m : String) (schema : List IgColumn)
    (old : List (List IgValue)) (r : List IgValue) (property : String)
    (h : o.find? m = some ⟨n, schema, old ++ [r]⟩) :
    o.value? m old.length property
      = match columnIndex property schema with
        | some k => r[k]?
        | none => none :=
  value?_of_find? o n m schema old [] [] r property h

theorem itemsOf_of_find? (o : Outcome) (m : String) (c : IgCollection)
    (h : o.find? m = some c) : o.itemsOf m = c.items := by
  simp only [Outcome.itemsOf, h]

theorem propertiesOf_of_find? (o : Outcome) (m : String) (c : IgCollection)
    (h : o.find? m = some c) : o.propertiesOf m = c.properties := by
  simp only [Outcome.propertiesOf, h]

/-- On a valid event the run does not read the error sink: two services with
the same store end with the same store, in the same way, each with its own
messages untouched. -/
theorem analyze_valid_frame (self : ISpyEERecHit) (friendlyClassName : String)
    (storage : IgDataStorage) (errors errors1 : List String) (hits : List EcalRecHit)
    (caloGeometry : CaloGeometry) :
    let o := self.analyze friendlyClassName (some ⟨storage, errors⟩) ⟨some hits⟩
      ⟨some caloGeometry⟩
    let o1 := self.analyze friendlyClassName (some ⟨storage, errors1⟩) ⟨some hits⟩
      ⟨some caloGeometry⟩
    o1.storage? = o.storage? ∧ o1.isReturned = o.isReturned ∧ o1.isAborted = o.isAborted
    ∧ o1.errors = errors1 := by
  simp only [ISpyEERecHit.analyze]
  split
  · exact ⟨rfl, rfl, rfl, rfl⟩
  · split <;> exact ⟨rfl, rfl, rfl, rfl⟩

theorem error_message_begins (a b c d : String) :
    BeginsWith "### Error:"
      ("### Error: EERecHits " ++ a ++ ":" ++ b ++ ":" ++ c ++ ":" ++ d ++ " are not found.") := by
  refine ⟨" EERecHits " ++ a ++ ":" ++ b ++ ":" ++ c ++ ":" ++ d ++ " are not found.", ?_⟩
  have e : ("### Error: EERecHits " : String) = "### Error:" ++ " EERecHits " := by decide
  rw [e]
  simp only [String.append_assoc]

theorem exportedRows_length (caloGeometry : CaloGeometry) (hits : List EcalRecHit)
    (h : ¬ AllEightCorners caloGeometry hits) :
    (exportedRows caloGeometry hits).length
      = hits.findIdx (fun it =>
          decide ((caloGeometry.getGeometry it.detid).getCorners.length ≠ 8)) + 1 := by
  induction hits with
  | nil => exact absurd (fun _ hx => nomatch hx) h
  | cons it rest ih =>
    by_cases h8 : (cellOf caloGeometry it).getCorners.length = 8
    · have h8' : (caloGeometry.getGeometry it.detid).getCorners.length = 8 := h8
      have hrest : ¬ AllEightCorners caloGeometry rest := by
        intro hall
        apply h
        intro x hx
        rcases List.mem_cons.1 hx with rfl | hx
        · exact h8
        · exact hall x hx
      simp [exportedRows, h8, List.findIdx_cons, h8', ih hrest]
    · have h8' : ¬ (caloGeometry.getGeometry it.detid).getCorners.length = 8 := h8
      simp [exportedRows, h8, List.findIdx_cons, h8']

theorem isReturned_of_isAborted (o : Outcome) (h : o.isAborted = true) :
    o.isReturned = false := by
  cases o <;> simp [Outcome.isAborted, Outcome.isReturned] at h ⊢

theorem itemsOf_of_storage? (o : Outcome) (s : IgDataStorage) (m : String)
    (h : o.storage? = some s) : o.itemsOf m = s.itemsOf m := by
  cases o with
  | thrown c => simp [Outcome.storage?, Outcome.service?] at h
  | returned svc =>
    simp only [Outcome.storage?, Outcome.service?, Option.some.injEq] at h
    subst h
    rfl
  | aborted svc =>
    simp only [Outcome.storage?, Outcome.service?, Option.some.injEq] at h
    subst h
    rfl
  | escaped svc =>
    simp only [Outcome.storage?, Outcome.service?, Option.some.injEq] at h
    subst h
    rfl

/-- The row of the hit at which the run stops, as found in the store at that
moment. -/
theorem row_of_failing_hit (self : ISpyEERecHit) (friendlyClassName : String)
    (svc : ISpyService) (caloGeometry : CaloGeometry) (pre post : List EcalRecHit)
    (bad : EcalRecHit) (property : String)
    (hinv : SchemaInv svc.storage) (hpre : AllEightCorners caloGeometry pre)
    (hbad : (caloGeometry.getGeometry bad.detid).getCorners.length ≠ 8) :
    (self.analyze friendlyClassName (some svc) ⟨some (pre ++ bad :: post)⟩
        ⟨some caloGeometry⟩).value? "EERecHits_V2"
        ((svc.storage.itemsOf "EERecHits_V2").length + pre.length) property
      = match columnIndex property recHitSchema with
        | some k => (scalarRow caloGeometry bad)[k]?
        | none => none := by
  obtain ⟨-, -, -, -, hR, -⟩ :=
    analyze_valid_observed self friendlyClassName svc (pre ++ bad :: post) caloGeometry hinv
  have hbad' : ¬ (cellOf caloGeometry bad).getCorners.length = 8 := hbad
  rw [exportedRows_append caloGeometry pre (bad :: post) hpre] at hR
  simp only [exportedRows, hbad', if_false] at hR
  have := value?_of_find? _ _ _ _ _ (pre.map (completeRow caloGeometry))
    [] (scalarRow caloGeometry bad) property hR
  simpa using this

theorem row_of_earlier_hit (self : ISpyEERecHit) (friendlyClassName : String)
    (svc : ISpyService) (caloGeometry : CaloGeometry) (pre rest : List EcalRecHit)
    (i : Nat) (hi : i < pre.length) (property : String)
    (hinv : SchemaInv svc.storage) (hpre : AllEightCorners caloGeometry pre) :
    (self.analyze friendlyClassName (some svc) ⟨some (pre ++ rest)⟩
        ⟨some caloGeometry⟩).value? "EERecHits_V2"
        ((svc.storage.itemsOf "EERecHits_V2").length + i) property
      = match columnIndex property recHitSchema with
        | some k => (completeRow caloGeometry pre[i])[k]?
        | none => none := by
  have hsplit : pre ++ rest = pre.take i ++ pre[i] :: (pre.drop (i + 1) ++ rest) := by
    have h0 : pre = pre.take i ++ pre[i] :: pre.drop (i + 1) := by
      rw [← List.drop_eq_getElem_cons hi, List.take_append_drop]
    have h1 : (pre.take i ++ pre[i] :: pre.drop (i + 1)) ++ rest
        = pre.take i ++ pre[i] :: (pre.drop (i + 1) ++ rest) := by
      rw [List.append_assoc, List.cons_append]
    rw [← h1, ← h0]
  have hpre' : AllEightCorners caloGeometry (pre.take i) :=
    fun x hx => hpre x (List.mem_of_mem_take hx)
  have h8 : (caloGeometry.getGeometry pre[i].detid).getCorners.length = 8 :=
    hpre pre[i] (List.getElem_mem hi)
  have hlen : (pre.take i).length = i := by
    rw [List.length_take]
    omega
  have key := row_of_processed_hit self friendlyClassName svc caloGeometry (pre.take i)
    (pre.drop (i + 1) ++ rest) pre[i] property hinv hpre' h8
  rw [← hsplit, hlen] at key
  exact key

theorem not_found_ne_invalid (a b c d : String) :
    "### Error: EERecHits " ++ a ++ ":" ++ b ++ ":" ++ c ++ ":" ++ d ++ " are not found."
      ≠ "### Error: ISpyEERecHit::analyze: Invalid CaloGeometryRecord " := by
  intro h
  have e1 : ("### Error: EERecHits " : String) = "### Error: " ++ "EERecHits " := by decide
  have e2 : ("### Error: ISpyEERecHit::analyze: Invalid CaloGeometryRecord " : String)
      = "### Error: " ++ "ISpyEERecHit::analyze: Invalid CaloGeometryRecord " := by decide
  rw [e1, e2] at h
  simp only [String.append_assoc] at h
  have h1 := congrArg String.data h
  simp only [String.data_append, List.append_cancel_left_eq] at h1
  simp at h1

/-! ## The properties -/

/-- C1. For every hit processed by `analyze` (all hits before it have 8-corner
cells) whose resolved cell has exactly the 8 corners `c0 .. c7`, the row
created for that hit has `front_1 .. front_4` equal to `c3, c2, c1, c0` and
`back_1 .. back_4` equal to `c7, c6, c5, c4`, each coordinate divided by 100
in exact arithmetic. The store is any store satisfying the schema invariant,
and the hits after it are arbitrary. -/
theorem corner_remap (self : ISpyEERecHit) (friendlyClassName : String)
    (svc : ISpyService) (caloGeometry : CaloGeometry) (pre post : List EcalRecHit)
    (it : EcalRecHit) (c0 c1 c2 c3 c4 c5 c6 c7 : GlobalPoint)
    (hinv : SchemaInv svc.storage) (hpre : AllEightCorners caloGeometry pre)
    (hc : (caloGeometry.getGeometry it.detid).getCorners = [c0, c1, c2, c3, c4, c5, c6, c7]) :
    let o := self.analyze friendlyClassName (some svc) ⟨some (pre ++ it :: post)⟩
      ⟨some caloGeometry⟩
    let row := (svc.storage.itemsOf "EERecHits_V2").length + pre.length
    o.value? "EERecHits_V2" row "front_1" = some (.v3d ⟨c3.x / 100, c3.y / 100, c3.z / 100⟩)
    ∧ o.value? "EERecHits_V2" row "front_2" = some (.v3d ⟨c2.x / 100, c2.y / 100, c2.z / 100⟩)
    ∧ o.value? "EERecHits_V2" row "front_3" = some (.v3d ⟨c1.x / 100, c1.y / 100, c1.z / 100⟩)
    ∧ o.value? "EERecHits_V2" row "front_4" = some (.v3d ⟨c0.x / 100, c0.y / 100, c0.z / 100⟩)
    ∧ o.value? "EERecHits_V2" row "back_1" = some (.v3d ⟨c7.x / 100, c7.y / 100, c7.z / 100⟩)
    ∧ o.value? "EERecHits_V2" row "back_2" = some (.v3d ⟨c6.x / 100, c6.y / 100, c6.z / 100⟩)
    ∧ o.value? "EERecHits_V2" row "back_3" = some (.v3d ⟨c5.x / 100, c5.y / 100, c5.z / 100⟩)
    ∧ o.value? "EERecHits_V2" row "back_4"
        = some (.v3d ⟨c4.x / 100, c4.y / 100, c4.z / 100⟩) := by
  intro o row
  have h8 : (caloGeometry.getGeometry it.detid).getCorners.length = 8 := by rw [hc]; rfl
  have key := fun property =>
    row_of_processed_hit self friendlyClassName svc caloGeometry pre post it property
      hinv hpre h8
  have hcell : (cellOf caloGeometry it).getCorners = [c0, c1, c2, c3, c4, c5, c6, c7] := hc
  refine ⟨?_, ?_, ?_, ?_, ?_, ?_, ?_, ?_⟩ <;>
  · refine (key _).trans ?_
    simp [columnIndex, recHitSchema, completeRow, scaledCorner, hcell]

/-- Witness of C1: the corners `(i, i, i)` for `i` from 0 to 7 give
`front_1 = (0.03, 0.03, 0.03)`, `front_4 = (0, 0, 0)`,
`back_1 = (0.07, 0.07, 0.07)` and `back_4 = (0.04, 0.04, 0.04)`. -/
theorem corner_remap_witness :
    SchemaInv freshService.storage ∧ AllEightCorners sampleGeometry []
    ∧ (sampleGeometry.getGeometry sampleHit.detid).getCorners
        = [⟨0, 0, 0⟩, ⟨1, 1, 1⟩, ⟨2, 2, 2⟩, ⟨3, 3, 3⟩, ⟨4, 4, 4⟩, ⟨5, 5, 5⟩, ⟨6, 6, 6⟩,
            ⟨7, 7, 7⟩]
    ∧ (sampleExporter.analyze "EcalRecHitCollection" (some freshService) ⟨some [sampleHit]⟩
        ⟨some sampleGeometry⟩).value? "EERecHits_V2" 0 "front_1"
        = some (.v3d ⟨0.03, 0.03, 0.03⟩)
    ∧ (sampleExporter.analyze "EcalRecHitCollection" (some freshService) ⟨some [sampleHit]⟩
        ⟨some sampleGeometry⟩).value? "EERecHits_V2" 0 "front_4"
        = some (.v3d ⟨0, 0, 0⟩)
    ∧ (sampleExporter.analyze "EcalRecHitCollection" (some freshService) ⟨some [sampleHit]⟩
        ⟨some sampleGeometry⟩).value? "EERecHits_V2" 0 "back_1"
        = some (.v3d ⟨0.07, 0.07, 0.07⟩)
    ∧ (sampleExporter.analyze "EcalRecHitCollection" (some freshService) ⟨some [sampleHit]⟩
        ⟨some sampleGeometry⟩).value? "EERecHits_V2" 0 "back_4"
        = some (.v3d ⟨0.04, 0.04, 0.04⟩) := by
  have hinv : SchemaInv freshService.storage := schemaInv_empty
  have hpre : AllEightCorners sampleGeometry [] := by simp [AllEightCorners]
  have h := corner_remap sampleExporter "EcalRecHitCollection" freshService sampleGeometry
    [] [] sampleHit ⟨0, 0, 0⟩ ⟨1, 1, 1⟩ ⟨2, 2, 2⟩ ⟨3, 3, 3⟩ ⟨4, 4, 4⟩ ⟨5, 5, 5⟩ ⟨6, 6, 6⟩
    ⟨7, 7, 7⟩ hinv hpre rfl
  obtain ⟨h1, -, -, h4, h5, -, -, h8⟩ := h
  refine ⟨hinv, hpre, rfl, ?_, ?_, ?_, ?_⟩
  · rw [show (0.03 : ℚ) = 3 / 100 by norm_num]; exact h1
  · rw [show (0 : ℚ) = 0 / 100 by norm_num]; exact h4
  · rw [show (0.07 : ℚ) = 7 / 100 by norm_num]; exact h5
  · rw [show (0.04 : ℚ) = 4 / 100 by norm_num]; exact h8

/-- C9. For every hit processed by `analyze` (all hits before it have 8-corner
cells) whose cell has 8 corners, the created row's energy, time, eta, phi,
deltaEta and deltaPhi are the source values themselves, whatever they are
(zero and negative energies included), and its detid is the detector
identifier narrowed to a signed 32-bit integer: the identifier itself below
`2^31`, the identifier minus `2^32` from `2^31` on (the identifier being a
32-bit unsigned word). The store is any store satisfying the schema
invariant. -/
theorem scalar_fields (self : ISpyEERecHit) (friendlyClassName : String)
    (svc : ISpyService) (caloGeometry : CaloGeometry) (pre post : List EcalRecHit)
    (it : EcalRecHit)
    (hinv : SchemaInv svc.storage) (hpre : AllEightCorners caloGeometry pre)
    (h8 : (caloGeometry.getGeometry it.detid).getCorners.length = 8) :
    let o := self.analyze friendlyClassName (some svc) ⟨some (pre ++ it :: post)⟩
      ⟨some caloGeometry⟩
    let row := (svc.storage.itemsOf "EERecHits_V2").length + pre.length
    o.value? "EERecHits_V2" row "energy" = some (.double it.energy)
    ∧ o.value? "EERecHits_V2" row "time" = some (.double it.time)
    ∧ o.value? "EERecHits_V2" row "eta"
        = some (.double (caloGeometry.getGeometry it.detid).eta)
    ∧ o.value? "EERecHits_V2" row "phi"
        = some (.double (caloGeometry.getGeometry it.detid).phi)
    ∧ o.value? "EERecHits_V2" row "deltaEta"
        = some (.double ((caloGeometry.getSubdetectorGeometry it.detid).deltaEta it.detid))
    ∧ o.value? "EERecHits_V2" row "deltaPhi"
        = some (.double ((caloGeometry.getSubdetectorGeometry it.detid).deltaPhi it.detid))
    ∧ o.value? "EERecHits_V2" row "detid" = some (.int (staticCastInt it.detid))
    ∧ (it.detid < 2 ^ 31 → staticCastInt it.detid = (it.detid : ℤ))
    ∧ (2 ^ 31 ≤ it.detid → it.detid < 2 ^ 32 →
        staticCastInt it.detid = (it.detid : ℤ) - 2 ^ 32) := by
  intro o row
  have key := fun property =>
    row_of_processed_hit self friendlyClassName svc caloGeometry pre post it property
      hinv hpre h8
  refine ⟨?_, ?_, ?_, ?_, ?_, ?_, ?_, staticCastInt_small it.detid,
    staticCastInt_large it.detid⟩ <;>
  · refine (key _).trans ?_
    simp [columnIndex, recHitSchema, completeRow, cellOf]

/-- Witness of C9: `detectorId = 42`, `energy = 1.5`, `time = 3.2`, `eta = 0.1`,
`phi = 0.2`, `deltaEta = 0.01`, `deltaPhi = 0.02` give a row with exactly those
values. -/
theorem scalar_fields_witness :
    SchemaInv freshService.storage ∧ AllEightCorners sampleGeometry []
    ∧ (sampleGeometry.getGeometry sampleHit.detid).getCorners.length = 8
    ∧ (sampleExporter.analyze "EcalRecHitCollection" (some freshService) ⟨some [sampleHit]⟩
        ⟨some sampleGeometry⟩).value? "EERecHits_V2" 0 "energy" = some (.double 1.5)
    ∧ (sampleExporter.analyze "EcalRecHitCollection" (some freshService) ⟨some [sampleHit]⟩
        ⟨some sampleGeometry⟩).value? "EERecHits_V2" 0 "time" = some (.double 3.2)
    ∧ (sampleExporter.analyze "EcalRecHitCollection" (some freshService) ⟨some [sampleHit]⟩
        ⟨some sampleGeometry⟩).value? "EERecHits_V2" 0 "eta" = some (.double 0.1)
    ∧ (sampleExporter.analyze "EcalRecHitCollection" (some freshService) ⟨some [sampleHit]⟩
        ⟨some sampleGeometry⟩).value? "EERecHits_V2" 0 "phi" = some (.double 0.2)
    ∧ (sampleExporter.analyze "EcalRecHitCollection" (some freshService) ⟨some [sampleHit]⟩
        ⟨some sampleGeometry⟩).value? "EERecHits_V2" 0 "deltaEta" = some (.double 0.01)
    ∧ (sampleExporter.analyze "EcalRecHitCollection" (some freshService) ⟨some [sampleHit]⟩
        ⟨some sampleGeometry⟩).value? "EERecHits_V2" 0 "deltaPhi" = some (.double 0.02)
    ∧ (sampleExporter.analyze "EcalRecHitCollection" (some freshService) ⟨some [sampleHit]⟩
        ⟨some sampleGeometry⟩).value? "EERecHits_V2" 0 "detid" = some (.int 42) := by
  have hinv : SchemaInv freshService.storage := schemaInv_empty
  have hpre : AllEightCorners sampleGeometry [] := by simp [AllEightCorners]
  have h := scalar_fields sampleExporter "EcalRecHitCollection" freshService sampleGeometry
    [] [] sampleHit hinv hpre rfl
  obtain ⟨h1, h2, h3, h4, h5, h6, h7, h8, -⟩ := h
  have e7 : staticCastInt sampleHit.detid = 42 := h8 (by decide)
  rw [e7] at h7
  refine ⟨hinv, hpre, rfl, ?_, ?_, ?_, ?_, ?_, ?_, h7⟩
  · rw [show (1.5 : ℚ) = 3 / 2 by norm_num]; exact h1
  · rw [show (3.2 : ℚ) = 16 / 5 by norm_num]; exact h2
  · rw [show (0.1 : ℚ) = 1 / 10 by norm_num]; exact h3
  · rw [show (0.2 : ℚ) = 2 / 10 by norm_num]; exact h4
  · rw [show (0.01 : ℚ) = 1 / 100 by norm_num]; exact h5
  · rw [show (0.02 : ℚ) = 2 / 100 by norm_num]; exact h6

/-- C3. For every hit sequence of length `K` in which every cell has 8
corners, `analyze` returns having appended exactly `K` rows to `"EERecHits_V2"`
after the rows already there, and for every `i < K` the `i`-th appended row
carries the energy, the time and the detector identifier of the `i`-th hit:
the identifier as cast by line 109, which is the identifier itself below
`2^31` and the identifier minus `2^32` from `2^31` on (the identifier being a
32-bit unsigned word). With `K = 0` no rechit row is appended. The store is
any store satisfying the schema invariant. -/
theorem row_order (self : ISpyEERecHit) (friendlyClassName : String)
    (svc : ISpyService) (caloGeometry : CaloGeometry) (hits : List EcalRecHit)
    (hinv : SchemaInv svc.storage) (hall : AllEightCorners caloGeometry hits) :
    let o := self.analyze friendlyClassName (some svc) ⟨some hits⟩ ⟨some caloGeometry⟩
    let old := svc.storage.itemsOf "EERecHits_V2"
    o.Returned
    ∧ (o.itemsOf "EERecHits_V2").take old.length = old
    ∧ (o.itemsOf "EERecHits_V2").length = old.length + hits.length
    ∧ ∀ (i : Nat) (hi : i < hits.length),
        o.value? "EERecHits_V2" (old.length + i) "energy" = some (.double hits[i].energy)
        ∧ o.value? "EERecHits_V2" (old.length + i) "time" = some (.double hits[i].time)
        ∧ o.value? "EERecHits_V2" (old.length + i) "detid"
            = some (.int (staticCastInt hits[i].detid))
        ∧ (hits[i].detid < 2 ^ 31 →
            o.value? "EERecHits_V2" (old.length + i) "detid"
              = some (.int (hits[i].detid : ℤ)))
        ∧ (2 ^ 31 ≤ hits[i].detid → hits[i].detid < 2 ^ 32 →
            o.value? "EERecHits_V2" (old.length + i) "detid"
              = some (.int ((hits[i].detid : ℤ) - 2 ^ 32))) := by
  intro o old
  obtain ⟨hret, -, -, -, hR, -⟩ :=
    analyze_valid_observed self friendlyClassName svc hits caloGeometry hinv
  have hR' : o.find? "EERecHits_V2" = some ⟨"EERecHits_V2", recHitSchema,
      old ++ hits.map (completeRow caloGeometry)⟩ := by
    rw [← exportedRows_all caloGeometry hits hall]
    exact hR
  have hitems : o.itemsOf "EERecHits_V2" = old ++ hits.map (completeRow caloGeometry) := by
    simp only [Outcome.itemsOf, hR']
  refine ⟨hret.2 hall, ?_, ?_, ?_⟩
  · rw [hitems]
    simp
  · rw [hitems]
    simp
  · intro i hi
    have key := fun property =>
      row_of_earlier_hit self friendlyClassName svc caloGeometry hits [] i hi property
        hinv hall
    rw [List.append_nil] at key
    have hE : o.value? "EERecHits_V2" (old.length + i) "energy"
        = some (.double hits[i].energy) := by
      refine (key _).trans ?_
      simp [columnIndex, recHitSchema, completeRow]
    have hT : o.value? "EERecHits_V2" (old.length + i) "time"
        = some (.double hits[i].time) := by
      refine (key _).trans ?_
      simp [columnIndex, recHitSchema, completeRow]
    have hD : o.value? "EERecHits_V2" (old.length + i) "detid"
        = some (.int (staticCastInt hits[i].detid)) := by
      refine (key _).trans ?_
      simp [columnIndex, recHitSchema, completeRow]
    refine ⟨hE, hT, hD, ?_, ?_⟩
    · intro hlt
      rw [hD, staticCastInt_small _ hlt]
    · intro hge hlt
      rw [hD, staticCastInt_large _ hge hlt]

/-- Witness of C3: two hits, exported to an empty store, give two rows in the
order of the hits, with their energies and detector identifiers. -/
theorem row_order_witness :
    SchemaInv freshService.storage
    ∧ AllEightCorners sampleGeometry [sampleHit, ⟨43, -1, 0⟩]
    ∧ (sampleExporter.analyze "EcalRecHitCollection" (some freshService)
        ⟨some [sampleHit, ⟨43, -1, 0⟩]⟩ ⟨some sampleGeometry⟩).Returned
    ∧ ((sampleExporter.analyze "EcalRecHitCollection" (some freshService)
        ⟨some [sampleHit, ⟨43, -1, 0⟩]⟩ ⟨some sampleGeometry⟩).itemsOf "EERecHits_V2").length
        = 2
    ∧ (sampleExporter.analyze "EcalRecHitCollection" (some freshService)
        ⟨some [sampleHit, ⟨43, -1, 0⟩]⟩ ⟨some sampleGeometry⟩).value? "EERecHits_V2" 0 "energy" = some (.double (3 / 2))
    ∧ (sampleExporter.analyze "EcalRecHitCollection" (some freshService)
        ⟨some [sampleHit, ⟨43, -1, 0⟩]⟩ ⟨some sampleGeometry⟩).value? "EERecHits_V2" 0 "detid" = some (.int 42)
    ∧ (sampleExporter.analyze "EcalRecHitCollection" (some freshService)
        ⟨some [sampleHit, ⟨43, -1, 0⟩]⟩ ⟨some sampleGeometry⟩).value? "EERecHits_V2" 1 "energy" = some (.double (-1))
    ∧ (sampleExporter.analyze "EcalRecHitCollection" (some freshService)
        ⟨some [sampleHit, ⟨43, -1, 0⟩]⟩ ⟨some sampleGeometry⟩).value? "EERecHits_V2" 1 "detid" = some (.int 43) := by
  have hinv : SchemaInv freshService.storage := schemaInv_empty
  have hall : AllEightCorners sampleGeometry [sampleHit, ⟨43, -1, 0⟩] := by
    intro it _
    rfl
  have h := row_order sampleExporter "EcalRecHitCollection" freshService sampleGeometry
    [sampleHit, ⟨43, -1, 0⟩] hinv hall
  obtain ⟨h1, -, h3, h4⟩ := h
  have e : (freshService.storage.itemsOf "EERecHits_V2").length = 0 := rfl
  rw [e] at h3
  have r0 := h4 0 (by decide)
  have r1 := h4 1 (by decide)
  rw [e] at r0 r1
  exact ⟨hinv, hall, h1, h3, r0.1, r0.2.2.2.1 (by decide), r1.1, r1.2.2.2.1 (by decide)⟩

/-- C2, as the code has it. For every event whose hit collection is valid,
whatever its hits, `analyze` appends exactly one row to `"Products_V1"`, and
the `"Product"` string of that row is the text `"EERecHits "` followed by
`"<friendly type name>:<label>:<instance>:<process>"`, nothing after it. The
store is any store satisfying the schema invariant. -/
theorem product_row (self : ISpyEERecHit) (friendlyClassName : String)
    (svc : ISpyService) (caloGeometry : CaloGeometry) (hits : List EcalRecHit)
    (hinv : SchemaInv svc.storage) :
    let o := self.analyze friendlyClassName (some svc) ⟨some hits⟩ ⟨some caloGeometry⟩
    let old := svc.storage.itemsOf "Products_V1"
    o.itemsOf "Products_V1"
        = old ++ [[.string ("EERecHits " ++ friendlyClassName ++ ":" ++ self.inputTag_.label
            ++ ":" ++ self.inputTag_.productInstance ++ ":" ++ self.inputTag_.process)]]
    ∧ o.value? "Products_V1" old.length "Product"
        = some (.string ("EERecHits " ++ friendlyClassName ++ ":" ++ self.inputTag_.label
            ++ ":" ++ self.inputTag_.productInstance ++ ":" ++ self.inputTag_.process)) := by
  intro o old
  obtain ⟨-, -, -, hP, -, -⟩ :=
    analyze_valid_observed self friendlyClassName svc hits caloGeometry hinv
  refine ⟨itemsOf_of_find? _ _ _ hP, ?_⟩
  exact (value?_last _ _ _ _ _ _ "Product" hP).trans rfl

/-- Witness of the amended C2, on the empty store. -/
theorem product_row_witness :
    SchemaInv freshService.storage
    ∧ (sampleExporter.analyze "EcalRecHitCollection" (some freshService) ⟨some [sampleHit]⟩
        ⟨some sampleGeometry⟩).itemsOf "Products_V1"
        = [[.string "EERecHits EcalRecHitCollection:L:I:P"]] := by
  have hinv : SchemaInv freshService.storage := schemaInv_empty
  have h := (product_row sampleExporter "EcalRecHitCollection" freshService sampleGeometry
    [sampleHit] hinv).1
  have e : ("EERecHits " ++ "EcalRecHitCollection" ++ ":" ++ sampleExporter.inputTag_.label
      ++ ":" ++ sampleExporter.inputTag_.productInstance ++ ":"
      ++ sampleExporter.inputTag_.process : String)
      = "EERecHits EcalRecHitCollection:L:I:P" := by decide
  rw [e] at h
  exact ⟨hinv, h⟩

/-- Counterexample to C2 as stated: for type name `EcalRecHitCollection`, label
`L`, instance `I` and process `P` the `"Product"` field is
`"EERecHits EcalRecHitCollection:L:I:P"`, which is not
`"EcalRecHitCollection:L:I:P"`: the text `"EERecHits "` stands before it. -/
theorem product_string_counterexample :
    (sampleExporter.analyze "EcalRecHitCollection" (some freshService) ⟨some [sampleHit]⟩
        ⟨some sampleGeometry⟩).value? "Products_V1" 0 "Product"
      = some (.string "EERecHits EcalRecHitCollection:L:I:P")
    ∧ (sampleExporter.analyze "EcalRecHitCollection" (some freshService) ⟨some [sampleHit]⟩
        ⟨some sampleGeometry⟩).value? "Products_V1" 0 "Product"
      ≠ some (.string "EcalRecHitCollection:L:I:P") := by
  obtain ⟨-, -, -, hP, -, -⟩ :=
    analyze_valid_observed sampleExporter "EcalRecHitCollection" freshService [sampleHit]
      sampleGeometry schemaInv_empty
  have h := value?_last _ _ _ _ _ _ "Product" hP
  have e : productName "EcalRecHitCollection" sampleExporter.inputTag_
      = "EERecHits EcalRecHitCollection:L:I:P" := by decide
  rw [e] at h
  have h0 : (sampleExporter.analyze "EcalRecHitCollection" (some freshService)
      ⟨some [sampleHit]⟩ ⟨some sampleGeometry⟩).value? "Products_V1" 0 "Product"
      = some (.string "EERecHits EcalRecHitCollection:L:I:P") := h.trans rfl
  refine ⟨h0, ?_⟩
  rw [h0]
  decide

/-- C6, on the code. When the geometry record cannot be resolved, `getData`
raises on line 47 and the exception leaves `analyze`: the call does not
return, nothing is reported to the error sink and the store is unchanged. The
report of lines 50 to 55 is never made: whatever the event and the event
setup, `analyze` does not end by returning with the message of line 52
reported, since the pointer tested on line 49 is the address of a reference
and is never null. -/
theorem geometry_unresolved (self : ISpyEERecHit) (friendlyClassName : String)
    (svc : ISpyService) (event : Event) :
    self.analyze friendlyClassName (some svc) event ⟨none⟩ = .escaped svc
    ∧ (self.analyze friendlyClassName (some svc) event ⟨none⟩).isReturned = false
    ∧ (self.analyze friendlyClassName (some svc) event ⟨none⟩).errors = svc.errors
    ∧ (self.analyze friendlyClassName (some svc) event ⟨none⟩).storage? = some svc.storage
    ∧ ∀ eventSetup : EventSetup,
        self.analyze friendlyClassName (some svc) event eventSetup
          ≠ .returned (svc.error
              "### Error: ISpyEERecHit::analyze: Invalid CaloGeometryRecord ") := by
  refine ⟨rfl, rfl, rfl, rfl, ?_⟩
  intro eventSetup
  obtain ⟨geometry⟩ := eventSetup
  obtain ⟨collection⟩ := event
  obtain ⟨storage, errors⟩ := svc
  cases geometry with
  | none =>
    intro h
    exact Outcome.noConfusion h
  | some caloGeometry =>
    cases collection with
    | none =>
      intro h
      have h1 : errors ++ ["### Error: EERecHits " ++ friendlyClassName ++ ":"
          ++ self.inputTag_.label ++ ":" ++ self.inputTag_.productInstance ++ ":"
          ++ self.inputTag_.process ++ " are not found."]
          = errors ++ ["### Error: ISpyEERecHit::analyze: Invalid CaloGeometryRecord "] :=
        congrArg Outcome.errors h
      have h2 := List.append_cancel_left h1
      exact not_found_ne_invalid _ _ _ _ (List.cons.inj h2).1
    | some hits =>
      intro h
      have hf := (analyze_valid_frame self friendlyClassName storage errors errors hits
        caloGeometry).2.2.2
      have h1 : errors ++ ["### Error: ISpyEERecHit::analyze: Invalid CaloGeometryRecord "]
          = errors := by
        have h3 := congrArg Outcome.errors h
        rw [hf] at h3
        exact h3.symm
      have h2 := congrArg List.length h1
      simp at h2

/-- C4. For every event whose hit collection is reported invalid, the
geometry record being resolved, `analyze` returns normally, the store is
unchanged (no row is written to the rechit collection or to `"Products_V1"`),
and exactly one error is reported, which begins with `"### Error:"`. A
following event with a valid collection is then processed as if the invalid
event had not been there: it ends in the same way with the same store, the
sink still holding the one message. -/
theorem invalid_collection_skipped (self : ISpyEERecHit) (friendlyClassName : String)
    (svc : ISpyService) (caloGeometry0 : CaloGeometry) :
    ∃ message : String,
      BeginsWith "### Error:" message
      ∧ self.analyze friendlyClassName (some svc) ⟨none⟩ ⟨some caloGeometry0⟩
          = .returned ⟨svc.storage, svc.errors ++ [message]⟩
      ∧ ∀ (hits : List EcalRecHit) (caloGeometry : CaloGeometry),
          (self.analyze friendlyClassName (some ⟨svc.storage, svc.errors ++ [message]⟩)
              ⟨some hits⟩ ⟨some caloGeometry⟩).storage?
            = (self.analyze friendlyClassName (some svc) ⟨some hits⟩
                ⟨some caloGeometry⟩).storage?
          ∧ (self.analyze friendlyClassName (some ⟨svc.storage, svc.errors ++ [message]⟩)
              ⟨some hits⟩ ⟨some caloGeometry⟩).isReturned
            = (self.analyze friendlyClassName (some svc) ⟨some hits⟩
                ⟨some caloGeometry⟩).isReturned
          ∧ (self.analyze friendlyClassName (some ⟨svc.storage, svc.errors ++ [message]⟩)
              ⟨some hits⟩ ⟨some caloGeometry⟩).errors = svc.errors ++ [message] := by
  obtain ⟨storage, errors⟩ := svc
  refine ⟨"### Error: EERecHits " ++ friendlyClassName ++ ":" ++ self.inputTag_.label
    ++ ":" ++ self.inputTag_.productInstance ++ ":" ++ self.inputTag_.process
    ++ " are not found.", error_message_begins _ _ _ _, rfl, ?_⟩
  intro hits caloGeometry
  have h := analyze_valid_frame self friendlyClassName storage errors
    (errors ++ ["### Error: EERecHits " ++ friendlyClassName ++ ":" ++ self.inputTag_.label
    ++ ":" ++ self.inputTag_.productInstance ++ ":" ++ self.inputTag_.process
    ++ " are not found."]) hits caloGeometry
  exact ⟨h.1, h.2.1, h.2.2.2⟩

/-- C5. For every valid event that contains a hit whose resolved cell reports
a corner count other than 8, `analyze` does not return normally: it hard-fails,
nothing is reported to the error sink, and the failure is at the first such
hit, the hits after it getting no row: the rechit collection holds one row per
hit up to and including that hit, and none beyond. The store is any store
satisfying the schema invariant. -/
theorem corner_count_fatal (self : ISpyEERecHit) (friendlyClassName : String)
    (svc : ISpyService) (caloGeometry : CaloGeometry) (hits : List EcalRecHit)
    (hinv : SchemaInv svc.storage)
    (hbad : ∃ it ∈ hits, (caloGeometry.getGeometry it.detid).getCorners.length ≠ 8) :
    let o := self.analyze friendlyClassName (some svc) ⟨some hits⟩ ⟨some caloGeometry⟩
    o.Aborted ∧ ¬ o.Returned ∧ o.errors = svc.errors
    ∧ (o.itemsOf "EERecHits_V2").length
        = (svc.storage.itemsOf "EERecHits_V2").length
          + hits.findIdx (fun it =>
              decide ((caloGeometry.getGeometry it.detid).getCorners.length ≠ 8)) + 1 := by
  intro o
  obtain ⟨-, habo, herr, -, hR, -⟩ :=
    analyze_valid_observed self friendlyClassName svc hits caloGeometry hinv
  have hnot : ¬ AllEightCorners caloGeometry hits := by
    intro hall
    obtain ⟨it, hmem, hne⟩ := hbad
    exact hne (hall it hmem)
  have ha : o.Aborted := habo.2 hnot
  refine ⟨ha, ?_, herr, ?_⟩
  · intro hr
    have := isReturned_of_isAborted o ha
    rw [Outcome.Returned, this] at hr
    exact Bool.noConfusion hr
  · rw [itemsOf_of_find? _ _ _ hR]
    simp only [List.length_append, exportedRows_length caloGeometry hits hnot]
    omega

/-- Witness of C5: the second of three hits resolves to a cell with 7
corners. -/
theorem corner_count_fatal_witness :
    SchemaInv freshService.storage
    ∧ (∃ it ∈ [sampleHit, ⟨7, 1, 1⟩, ⟨8, 1, 1⟩],
        (faultyGeometry.getGeometry it.detid).getCorners.length ≠ 8)
    ∧ (sampleExporter.analyze "EcalRecHitCollection" (some freshService)
        ⟨some [sampleHit, ⟨7, 1, 1⟩, ⟨8, 1, 1⟩]⟩ ⟨some faultyGeometry⟩).Aborted
    ∧ (sampleExporter.analyze "EcalRecHitCollection" (some freshService)
        ⟨some [sampleHit, ⟨7, 1, 1⟩, ⟨8, 1, 1⟩]⟩ ⟨some faultyGeometry⟩).errors = [] := by
  have hinv : SchemaInv freshService.storage := schemaInv_empty
  have hbad : ∃ it ∈ [sampleHit, (⟨7, 1, 1⟩ : EcalRecHit), ⟨8, 1, 1⟩],
      (faultyGeometry.getGeometry it.detid).getCorners.length ≠ 8 :=
    ⟨⟨7, 1, 1⟩, by simp, by decide⟩
  have h := corner_count_fatal sampleExporter "EcalRecHitCollection" freshService
    faultyGeometry [sampleHit, ⟨7, 1, 1⟩, ⟨8, 1, 1⟩] hinv hbad
  exact ⟨hinv, hbad, h.1, h.2.2.1⟩

/-- C10. When the first hit whose cell has a corner count other than 8 is the
hit `bad` at index `pre.length`, the store at the moment of the hard failure is
not the store from before the event. It holds the provenance row, the complete
rows of the hits before `bad` (every field as exported: the scalars, the
detector identifier as cast, the corners reordered and divided by 100), and a
row for `bad` itself whose energy, eta, phi, time, detid, deltaEta and deltaPhi
are set while its eight corner fields still hold the default vector. The
store before the event is any store satisfying the schema invariant. -/
theorem state_at_failure (self : ISpyEERecHit) (friendlyClassName : String)
    (svc : ISpyService) (caloGeometry : CaloGeometry) (pre post : List EcalRecHit)
    (bad : EcalRecHit)
    (hinv : SchemaInv svc.storage) (hpre : AllEightCorners caloGeometry pre)
    (hbad : (caloGeometry.getGeometry bad.detid).getCorners.length ≠ 8) :
    let o := self.analyze friendlyClassName (some svc) ⟨some (pre ++ bad :: post)⟩
      ⟨some caloGeometry⟩
    let old := (svc.storage.itemsOf "EERecHits_V2").length
    let row := (svc.storage.itemsOf "EERecHits_V2").length + pre.length
    o.Aborted
    ∧ o.storage? ≠ some svc.storage
    ∧ o.itemsOf "Products_V1" = svc.storage.itemsOf "Products_V1"
        ++ [[.string ("EERecHits " ++ friendlyClassName ++ ":" ++ self.inputTag_.label
            ++ ":" ++ self.inputTag_.productInstance ++ ":" ++ self.inputTag_.process)]]
    ∧ o.itemsOf "EERecHits_V2" = svc.storage.itemsOf "EERecHits_V2"
        ++ pre.map (completeRow caloGeometry) ++ [scalarRow caloGeometry bad]
    ∧ (o.itemsOf "EERecHits_V2").length = old + pre.length + 1
    ∧ o.value? "EERecHits_V2" row "energy" = some (.double bad.energy)
    ∧ o.value? "EERecHits_V2" row "eta"
        = some (.double (caloGeometry.getGeometry bad.detid).eta)
    ∧ o.value? "EERecHits_V2" row "phi"
        = some (.double (caloGeometry.getGeometry bad.detid).phi)
    ∧ o.value? "EERecHits_V2" row "time" = some (.double bad.time)
    ∧ o.value? "EERecHits_V2" row "detid" = some (.int (staticCastInt bad.detid))
    ∧ (bad.detid < 2 ^ 31 →
        o.value? "EERecHits_V2" row "detid" = some (.int (bad.detid : ℤ)))
    ∧ (2 ^ 31 ≤ bad.detid → bad.detid < 2 ^ 32 →
        o.value? "EERecHits_V2" row "detid" = some (.int ((bad.detid : ℤ) - 2 ^ 32)))
    ∧ o.value? "EERecHits_V2" row "deltaEta"
        = some (.double ((caloGeometry.getSubdetectorGeometry bad.detid).deltaEta bad.detid))
    ∧ o.value? "EERecHits_V2" row "deltaPhi"
        = some (.double ((caloGeometry.getSubdetectorGeometry bad.detid).deltaPhi bad.detid))
    ∧ o.value? "EERecHits_V2" row "front_1" = some (.v3d ⟨0, 0, 0⟩)
    ∧ o.value? "EERecHits_V2" row "front_2" = some (.v3d ⟨0, 0, 0⟩)
    ∧ o.value? "EERecHits_V2" row "front_3" = some (.v3d ⟨0, 0, 0⟩)
    ∧ o.value? "EERecHits_V2" row "front_4" = some (.v3d ⟨0, 0, 0⟩)
    ∧ o.value? "EERecHits_V2" row "back_1" = some (.v3d ⟨0, 0, 0⟩)
    ∧ o.value? "EERecHits_V2" row "back_2" = some (.v3d ⟨0, 0, 0⟩)
    ∧ o.value? "EERecHits_V2" row "back_3" = some (.v3d ⟨0, 0, 0⟩)
    ∧ o.value? "EERecHits_V2" row "back_4" = some (.v3d ⟨0, 0, 0⟩)
    ∧ ∀ (i : Nat) (hi : i < pre.length) (c0 c1 c2 c3 c4 c5 c6 c7 : GlobalPoint),
        (caloGeometry.getGeometry pre[i].detid).getCorners
            = [c0, c1, c2, c3, c4, c5, c6, c7] →
        o.value? "EERecHits_V2" (old + i) "energy" = some (.double pre[i].energy)
        ∧ o.value? "EERecHits_V2" (old + i) "eta"
            = some (.double (caloGeometry.getGeometry pre[i].detid).eta)
        ∧ o.value? "EERecHits_V2" (old + i) "phi"
            = some (.double (caloGeometry.getGeometry pre[i].detid).phi)
        ∧ o.value? "EERecHits_V2" (old + i) "time" = some (.double pre[i].time)
        ∧ (pre[i].detid < 2 ^ 31 →
            o.value? "EERecHits_V2" (old + i) "detid" = some (.int (pre[i].detid : ℤ)))
        ∧ (2 ^ 31 ≤ pre[i].detid → pre[i].detid < 2 ^ 32 →
            o.value? "EERecHits_V2" (old + i) "detid"
              = some (.int ((pre[i].detid : ℤ) - 2 ^ 32)))
        ∧ o.value? "EERecHits_V2" (old + i) "deltaEta"
            = some (.double
                ((caloGeometry.getSubdetectorGeometry pre[i].detid).deltaEta pre[i].detid))
        ∧ o.value? "EERecHits_V2" (old + i) "deltaPhi"
            = some (.double
                ((caloGeometry.getSubdetectorGeometry pre[i].detid).deltaPhi pre[i].detid))
        ∧ o.value? "EERecHits_V2" (old + i) "front_1"
            = some (.v3d ⟨c3.x / 100, c3.y / 100, c3.z / 100⟩)
        ∧ o.value? "EERecHits_V2" (old + i) "front_2"
            = some (.v3d ⟨c2.x / 100, c2.y / 100, c2.z / 100⟩)
        ∧ o.value? "EERecHits_V2" (old + i) "front_3"
            = some (.v3d ⟨c1.x / 100, c1.y / 100, c1.z / 100⟩)
        ∧ o.value? "EERecHits_V2" (old + i) "front_4"
            = some (.v3d ⟨c0.x / 100, c0.y / 100, c0.z / 100⟩)
        ∧ o.value? "EERecHits_V2" (old + i) "back_1"
            = some (.v3d ⟨c7.x / 100, c7.y / 100, c7.z / 100⟩)
        ∧ o.value? "EERecHits_V2" (old + i) "back_2"
            = some (.v3d ⟨c6.x / 100, c6.y / 100, c6.z / 100⟩)
        ∧ o.value? "EERecHits_V2" (old + i) "back_3"
            = some (.v3d ⟨c5.x / 100, c5.y / 100, c5.z / 100⟩)
        ∧ o.value? "EERecHits_V2" (old + i) "back_4"
            = some (.v3d ⟨c4.x / 100, c4.y / 100, c4.z / 100⟩) := by
  intro o old row
  obtain ⟨-, habo, -, hP, hR, -⟩ :=
    analyze_valid_observed self friendlyClassName svc (pre ++ bad :: post) caloGeometry hinv
  have hbad' : ¬ (cellOf caloGeometry bad).getCorners.length = 8 := hbad
  have hnot : ¬ AllEightCorners caloGeometry (pre ++ bad :: post) :=
    fun hall => hbad (hall bad (by simp))
  have hP' : o.itemsOf "Products_V1" = svc.storage.itemsOf "Products_V1"
      ++ [[.string ("EERecHits " ++ friendlyClassName ++ ":" ++ self.inputTag_.label
            ++ ":" ++ self.inputTag_.productInstance ++ ":" ++ self.inputTag_.process)]] :=
    itemsOf_of_find? _ _ _ hP
  have hR' : o.itemsOf "EERecHits_V2" = svc.storage.itemsOf "EERecHits_V2"
      ++ pre.map (completeRow caloGeometry) ++ [scalarRow caloGeometry bad] := by
    rw [itemsOf_of_find? _ _ _ hR, exportedRows_append caloGeometry pre (bad :: post) hpre]
    simp only [exportedRows, hbad', if_false, List.append_assoc]
  have hlen : (o.itemsOf "EERecHits_V2").length = old + pre.length + 1 := by
    rw [hR']
    simp only [List.length_append, List.length_map, List.length_singleton]
  have hchanged : o.storage? ≠ some svc.storage := by
    intro heq
    have h1 := itemsOf_of_storage? o svc.storage "Products_V1" heq
    rw [hP'] at h1
    have h2 := congrArg List.length h1
    simp at h2
  have key := fun property =>
    row_of_failing_hit self friendlyClassName svc caloGeometry pre post bad property
      hinv hpre hbad
  have hD : o.value? "EERecHits_V2" row "detid" = some (.int (staticCastInt bad.detid)) := by
    refine (key _).trans ?_
    simp [columnIndex, recHitSchema, scalarRow]
  have hearlier : ∀ (i : Nat) (hi : i < pre.length) (c0 c1 c2 c3 c4 c5 c6 c7 : GlobalPoint),
      (caloGeometry.getGeometry pre[i].detid).getCorners
          = [c0, c1, c2, c3, c4, c5, c6, c7] →
      o.value? "EERecHits_V2" (old + i) "energy" = some (.double pre[i].energy)
      ∧ o.value? "EERecHits_V2" (old + i) "eta"
          = some (.double (caloGeometry.getGeometry pre[i].detid).eta)
      ∧ o.value? "EERecHits_V2" (old + i) "phi"
          = some (.double (caloGeometry.getGeometry pre[i].detid).phi)
      ∧ o.value? "EERecHits_V2" (old + i) "time" = some (.double pre[i].time)
      ∧ (pre[i].detid < 2 ^ 31 →
          o.value? "EERecHits_V2" (old + i) "detid" = some (.int (pre[i].detid : ℤ)))
      ∧ (2 ^ 31 ≤ pre[i].detid → pre[i].detid < 2 ^ 32 →
          o.value? "EERecHits_V2" (old + i) "detid"
            = some (.int ((pre[i].detid : ℤ) - 2 ^ 32)))
      ∧ o.value? "EERecHits_V2" (old + i) "deltaEta"
          = some (.double
              ((caloGeometry.getSubdetectorGeometry pre[i].detid).deltaEta pre[i].detid))
      ∧ o.value? "EERecHits_V2" (old + i) "deltaPhi"
          = some (.double
              ((caloGeometry.getSubdetectorGeometry pre[i].detid).deltaPhi pre[i].detid))
      ∧ o.value? "EERecHits_V2" (old + i) "front_1"
          = some (.v3d ⟨c3.x / 100, c3.y / 100, c3.z / 100⟩)
      ∧ o.value? "EERecHits_V2" (old + i) "front_2"
          = some (.v3d ⟨c2.x / 100, c2.y / 100, c2.z / 100⟩)
      ∧ o.value? "EERecHits_V2" (old + i) "front_3"
          = some (.v3d ⟨c1.x / 100, c1.y / 100, c1.z / 100⟩)
      ∧ o.value? "EERecHits_V2" (old + i) "front_4"
          = some (.v3d ⟨c0.x / 100, c0.y / 100, c0.z / 100⟩)
      ∧ o.value? "EERecHits_V2" (old + i) "back_1"
          = some (.v3d ⟨c7.x / 100, c7.y / 100, c7.z / 100⟩)
      ∧ o.value? "EERecHits_V2" (old + i) "back_2"
          = some (.v3d ⟨c6.x / 100, c6.y / 100, c6.z / 100⟩)
      ∧ o.value? "EERecHits_V2" (old + i) "back_3"
          = some (.v3d ⟨c5.x / 100, c5.y / 100, c5.z / 100⟩)
      ∧ o.value? "EERecHits_V2" (old + i) "back_4"
          = some (.v3d ⟨c4.x / 100, c4.y / 100, c4.z / 100⟩) := by
    intro i hi c0 c1 c2 c3 c4 c5 c6 c7 hc
    have k := fun property =>
      row_of_earlier_hit self friendlyClassName svc caloGeometry pre (bad :: post) i hi
        property hinv hpre
    have hDi : o.value? "EERecHits_V2" (old + i) "detid"
        = some (.int (staticCastInt pre[i].detid)) := by
      refine (k _).trans ?_
      simp [columnIndex, recHitSchema, completeRow]
    refine ⟨?_, ?_, ?_, ?_, fun hlt => by rw [hDi, staticCastInt_small _ hlt],
      fun hge hlt => by rw [hDi, staticCastInt_large _ hge hlt],
      ?_, ?_, ?_, ?_, ?_, ?_, ?_, ?_, ?_, ?_⟩ <;>
    · refine (k _).trans ?_
      simp [columnIndex, recHitSchema, completeRow, scaledCorner, cellOf, hc]
  refine ⟨habo.2 hnot, hchanged, hP', hR', hlen, ?_, ?_, ?_, ?_, hD,
    fun hlt => by rw [hD, staticCastInt_small _ hlt],
    fun hge hlt => by rw [hD, staticCastInt_large _ hge hlt],
    ?_, ?_, ?_, ?_, ?_, ?_, ?_, ?_, ?_, ?_, hearlier⟩ <;>
  · refine (key _).trans ?_
    simp [columnIndex, recHitSchema, scalarRow, cellOf, IgV3d.zero]

/-- Witness of C10: the second of three hits resolves to a cell with 7
corners. At the failure the provenance row is written, the rechit collection
holds two rows, the first complete (detid 42, front_1 = (0.03, 0.03, 0.03)),
the second with detid 7, energy 1 and front_1 at the default vector. -/
theorem state_at_failure_witness :
    SchemaInv freshService.storage
    ∧ AllEightCorners faultyGeometry [sampleHit]
    ∧ (faultyGeometry.getGeometry (⟨7, 1, 1⟩ : EcalRecHit).detid).getCorners.length ≠ 8
    ∧ (sampleExporter.analyze "EcalRecHitCollection" (some freshService)
        ⟨some [sampleHit, ⟨7, 1, 1⟩, ⟨8, 1, 1⟩]⟩ ⟨some faultyGeometry⟩).Aborted
    ∧ ((sampleExporter.analyze "EcalRecHitCollection" (some freshService)
        ⟨some [sampleHit, ⟨7, 1, 1⟩, ⟨8, 1, 1⟩]⟩ ⟨some faultyGeometry⟩).itemsOf "EERecHits_V2").length = 2
    ∧ (sampleExporter.analyze "EcalRecHitCollection" (some freshService)
        ⟨some [sampleHit, ⟨7, 1, 1⟩, ⟨8, 1, 1⟩]⟩ ⟨some faultyGeometry⟩).value?
          "EERecHits_V2" 1 "energy" = some (.double 1)
    ∧ (sampleExporter.analyze "EcalRecHitCollection" (some freshService)
        ⟨some [sampleHit, ⟨7, 1, 1⟩, ⟨8, 1, 1⟩]⟩ ⟨some faultyGeometry⟩).value?
          "EERecHits_V2" 1 "detid" = some (.int 7)
    ∧ (sampleExporter.analyze "EcalRecHitCollection" (some freshService)
        ⟨some [sampleHit, ⟨7, 1, 1⟩, ⟨8, 1, 1⟩]⟩ ⟨some faultyGeometry⟩).value?
          "EERecHits_V2" 1 "front_1" = some (.v3d ⟨0, 0, 0⟩)
    ∧ (sampleExporter.analyze "EcalRecHitCollection" (some freshService)
        ⟨some [sampleHit, ⟨7, 1, 1⟩, ⟨8, 1, 1⟩]⟩ ⟨some faultyGeometry⟩).value?
          "EERecHits_V2" 0 "detid" = some (.int 42)
    ∧ (sampleExporter.analyze "EcalRecHitCollection" (some freshService)
        ⟨some [sampleHit, ⟨7, 1, 1⟩, ⟨8, 1, 1⟩]⟩ ⟨some faultyGeometry⟩).value?
          "EERecHits_V2" 0 "front_1" = some (.v3d ⟨3 / 100, 3 / 100, 3 / 100⟩) := by
  have hinv : SchemaInv freshService.storage := schemaInv_empty
  have hpre : AllEightCorners faultyGeometry [sampleHit] := by
    intro it hit
    rw [List.mem_singleton.1 hit]
    decide
  have hbad : (faultyGeometry.getGeometry (⟨7, 1, 1⟩ : EcalRecHit).detid).getCorners.length ≠ 8 := by
    decide
  have h := state_at_failure sampleExporter "EcalRecHitCollection" freshService
    faultyGeometry [sampleHit] [⟨8, 1, 1⟩] ⟨7, 1, 1⟩ hinv hpre hbad
  obtain ⟨h1, -, -, -, hlen, hE, -, -, -, -, hD, -, -, -, hF, -, -, -, -, -, -, -, hearlier⟩ := h
  have e : (freshService.storage.itemsOf "EERecHits_V2").length = 0 := rfl
  have r0 := hearlier 0 (by decide) ⟨0, 0, 0⟩ ⟨1, 1, 1⟩ ⟨2, 2, 2⟩ ⟨3, 3, 3⟩ ⟨4, 4, 4⟩
    ⟨5, 5, 5⟩ ⟨6, 6, 6⟩ ⟨7, 7, 7⟩ rfl
  rw [e] at hlen r0
  exact ⟨hinv, hpre, hbad, h1, hlen, hE, hD (by decide), hF, r0.2.2.2.2.1 (by decide),
    r0.2.2.2.2.2.2.2.2.1⟩

/-- C7. After `analyze` has processed a valid event on an empty store, the
collection `"EERecHits_V2"` has exactly 15 properties, in this declaration order
and with these types: energy, eta, phi, time (double), detid (int), front_1
to front_4 and back_1 to back_4 (3-vector), deltaEta, deltaPhi (double); and
`"Products_V1"` has exactly one property, the string `"Product"`. This holds
however the loop over the hits ends. -/
theorem declared_schema (self : ISpyEERecHit) (friendlyClassName : String)
    (errors : List String) (caloGeometry : CaloGeometry) (hits : List EcalRecHit) :
    ((self.analyze friendlyClassName (some ⟨IgDataStorage.empty, errors⟩) ⟨some hits⟩
        ⟨some caloGeometry⟩).propertiesOf "EERecHits_V2").map (fun p => (p.name, p.type))
      = [("energy", .double), ("eta", .double), ("phi", .double), ("time", .double),
         ("detid", .int),
         ("front_1", .v3d), ("front_2", .v3d), ("front_3", .v3d), ("front_4", .v3d),
         ("back_1", .v3d), ("back_2", .v3d), ("back_3", .v3d), ("back_4", .v3d),
         ("deltaEta", .double), ("deltaPhi", .double)]
    ∧ ((self.analyze friendlyClassName (some ⟨IgDataStorage.empty, errors⟩) ⟨some hits⟩
        ⟨some caloGeometry⟩).propertiesOf "Products_V1").map (fun p => (p.name, p.type))
      = [("Product", .string)]
    ∧ ((self.analyze friendlyClassName (some ⟨IgDataStorage.empty, errors⟩) ⟨some hits⟩
        ⟨some caloGeometry⟩).Returned ↔ AllEightCorners caloGeometry hits) := by
  obtain ⟨hret, -, -, hP, hR, -⟩ :=
    analyze_valid_observed self friendlyClassName ⟨IgDataStorage.empty, errors⟩ hits
      caloGeometry schemaInv_empty
  rw [propertiesOf_of_find? _ _ _ hP, propertiesOf_of_find? _ _ _ hR]
  exact ⟨rfl, rfl, hret⟩

/-- C8. Running `analyze` on a second valid event (all cells with 8 corners)
against the store left by a first valid event changes no schema: both
collections keep their properties, in the same order, every property name
keeps its handle, every row written before is unchanged and only items are
added: one more provenance row and one row per hit of the second event. The
first event starts from any store satisfying the schema invariant. -/
theorem schema_stable (self : ISpyEERecHit) (friendlyClassName : String)
    (svc0 svc1 : ISpyService) (caloGeometry1 caloGeometry2 : CaloGeometry)
    (hits1 hits2 : List EcalRecHit)
    (hinv : SchemaInv svc0.storage)
    (hfirst : self.analyze friendlyClassName (some svc0) ⟨some hits1⟩ ⟨some caloGeometry1⟩
      = .returned svc1)
    (hall : AllEightCorners caloGeometry2 hits2) :
    let o := self.analyze friendlyClassName (some svc1) ⟨some hits2⟩ ⟨some caloGeometry2⟩
    o.Returned
    ∧ o.propertiesOf "Products_V1" = svc1.storage.propertiesOf "Products_V1"
    ∧ o.propertiesOf "EERecHits_V2" = svc1.storage.propertiesOf "EERecHits_V2"
    ∧ (∀ name, columnIndex name (o.propertiesOf "Products_V1")
        = columnIndex name (svc1.storage.propertiesOf "Products_V1"))
    ∧ (∀ name, columnIndex name (o.propertiesOf "EERecHits_V2")
        = columnIndex name (svc1.storage.propertiesOf "EERecHits_V2"))
    ∧ (o.itemsOf "Products_V1").take (svc1.storage.itemsOf "Products_V1").length
        = svc1.storage.itemsOf "Products_V1"
    ∧ (o.itemsOf "Products_V1").length = (svc1.storage.itemsOf "Products_V1").length + 1
    ∧ (o.itemsOf "EERecHits_V2").take (svc1.storage.itemsOf "EERecHits_V2").length
        = svc1.storage.itemsOf "EERecHits_V2"
    ∧ (o.itemsOf "EERecHits_V2").length
        = (svc1.storage.itemsOf "EERecHits_V2").length + hits2.length := by
  intro o
  -- the store left by the first event
  obtain ⟨-, -, -, hP1, hR1, -⟩ :=
    analyze_valid_observed self friendlyClassName svc0 hits1 caloGeometry1 hinv
  rw [hfirst] at hP1 hR1
  have hP1' : svc1.storage.find? "Products_V1" = some _ := hP1
  have hR1' : svc1.storage.find? "EERecHits_V2" = some _ := hR1
  have hinv1 : SchemaInv svc1.storage :=
    schemaInv_analyze self friendlyClassName svc0 svc1 ⟨some hits1⟩ ⟨some caloGeometry1⟩ hinv
      (by rw [hfirst]; rfl)
  have pP : svc1.storage.propertiesOf "Products_V1" = productsSchema := by
    simp only [IgDataStorage.propertiesOf, hP1']
  have pR : svc1.storage.propertiesOf "EERecHits_V2" = recHitSchema := by
    simp only [IgDataStorage.propertiesOf, hR1']
  -- the second event
  obtain ⟨hret, -, -, hP, hR, -⟩ :=
    analyze_valid_observed self friendlyClassName svc1 hits2 caloGeometry2 hinv1
  have qP : o.propertiesOf "Products_V1" = productsSchema := propertiesOf_of_find? _ _ _ hP
  have qR : o.propertiesOf "EERecHits_V2" = recHitSchema := propertiesOf_of_find? _ _ _ hR
  have iP := itemsOf_of_find? _ _ _ hP
  have iR := itemsOf_of_find? _ _ _ hR
  rw [exportedRows_all caloGeometry2 hits2 hall] at iR
  refine ⟨hret.2 hall, by rw [qP, pP], by rw [qR, pR], fun name => by rw [qP, pP],
    fun name => by rw [qR, pR], ?_, ?_, ?_, ?_⟩
  · show (o.itemsOf "Products_V1").take _ = _
    rw [iP]
    simp
  · show (o.itemsOf "Products_V1").length = _
    rw [iP]
    simp
  · show (o.itemsOf "EERecHits_V2").take _ = _
    rw [iR]
    simp
  · show (o.itemsOf "EERecHits_V2").length = _
    rw [iR]
    simp

/-- Witness of C8: a first event without hits on the empty store, then a
second event with one hit. -/
theorem schema_stable_witness :
    SchemaInv freshService.storage
    ∧ sampleExporter.analyze "EcalRecHitCollection" (some freshService) ⟨some []⟩
        ⟨some sampleGeometry⟩
      = .returned ⟨⟨[⟨"Products_V1", productsSchema,
            [[.string "EERecHits EcalRecHitCollection:L:I:P"]]⟩,
          ⟨"EERecHits_V2", recHitSchema, []⟩]⟩, []⟩
    ∧ AllEightCorners sampleGeometry [sampleHit]
    ∧ (sampleExporter.analyze "EcalRecHitCollection"
        (some ⟨⟨[⟨"Products_V1", productsSchema,
            [[.string "EERecHits EcalRecHitCollection:L:I:P"]]⟩,
          ⟨"EERecHits_V2", recHitSchema, []⟩]⟩, []⟩)
        ⟨some [sampleHit]⟩ ⟨some sampleGeometry⟩).Returned
    ∧ (sampleExporter.analyze "EcalRecHitCollection"
        (some ⟨⟨[⟨"Products_V1", productsSchema,
            [[.string "EERecHits EcalRecHitCollection:L:I:P"]]⟩,
          ⟨"EERecHits_V2", recHitSchema, []⟩]⟩, []⟩)
        ⟨some [sampleHit]⟩ ⟨some sampleGeometry⟩).propertiesOf "EERecHits_V2"
      = recHitSchema := by
  have hinv : SchemaInv freshService.storage := schemaInv_empty
  have hfirst : sampleExporter.analyze "EcalRecHitCollection" (some freshService) ⟨some []⟩
        ⟨some sampleGeometry⟩
      = .returned ⟨⟨[⟨"Products_V1", productsSchema,
            [[.string "EERecHits EcalRecHitCollection:L:I:P"]]⟩,
          ⟨"EERecHits_V2", recHitSchema, []⟩]⟩, []⟩ := by
    simp [ISpyEERecHit.analyze, freshService, IgDataStorage.empty,
      IgDataStorage.getCollection, IgDataStorage.find?, lookupCollection, writeProduct_fresh,
      IgDataStorage.put, replaceCollection, IgM.bind_apply, declare_fresh, exportRecHits,
      IgM.pure_apply, productName, sampleExporter]
  have hall : AllEightCorners sampleGeometry [sampleHit] := by
    intro it _
    rfl
  have h := schema_stable sampleExporter "EcalRecHitCollection" freshService _ sampleGeometry
    sampleGeometry [] [sampleHit] hinv hfirst hall
  obtain ⟨h1, -, h3, -⟩ := h
  have e : IgDataStorage.propertiesOf (⟨[⟨"Products_V1", productsSchema,
            [[.string "EERecHits EcalRecHitCollection:L:I:P"]]⟩,
          ⟨"EERecHits_V2", recHitSchema, []⟩]⟩ : IgDataStorage) "EERecHits_V2"
      = recHitSchema := by
    simp [IgDataStorage.propertiesOf, IgDataStorage.find?, lookupCollection]
  exact ⟨hinv, hfirst, hall, h1, h3.trans e⟩

end ISpy
